import Mathlib

/-!
Verification of the download/conversion orchestration core of the
Youtube-downloader-converter desktop application, embedded from
`src/app/pages/downloads_page.py`.

Embedding conventions:
* Python floats are modelled by `ℚ`; every concrete value appearing in the
  claims is far from a binary rounding boundary, so the rational model agrees
  with IEEE-754 evaluation on all claim-relevant observations.
* Python exceptions are modelled structurally: a `try/except` block becomes an
  explicit case split, and operations that can raise return `Option`/`Except`
  values that are threaded along the source's handler structure (effects
  performed before the raise point are kept, as in Python).
* The filesystem is a list of entries, the external process's stdout is a list
  of lines, and Qt signal emissions are collected into an explicit event list.
Source line numbers cited in comments refer to `src/app/pages/downloads_page.py`.
-/

namespace YtDl

/-! ### Python string primitives -/

/-- `listStartsWith pat l` : does `l` start with `pat`? -/
def listStartsWith : List Char → List Char → Bool
  | [], _ => true
  | _ :: _, [] => false
  | a :: as, b :: bs => a == b && listStartsWith as bs

/-- `listContains pat l` : does `pat` occur as a contiguous sublist of `l`?
(Python's `pat in s`.) -/
def listContains (pat : List Char) : List Char → Bool
  | [] => pat.isEmpty
  | c :: rest => listStartsWith pat (c :: rest) || listContains pat rest

/-- Python `pat in s`. -/
def pyIn (pat s : String) : Bool := listContains pat.toList s.toList

/-- Python `s.startswith(pre)`. -/
def pyStartsWith (s pre : String) : Bool := listStartsWith pre.toList s.toList

/-- Python `s.endswith(suf)`. -/
def pyEndsWith (s suf : String) : Bool :=
  listStartsWith suf.toList.reverse s.toList.reverse

/-- The whitespace characters stripped by Python's `str.strip()` /
split by `str.split()`. -/
def isPySpace (c : Char) : Bool :=
  c == ' ' || c == '\t' || c == '\n' || c == '\r' || c == Char.ofNat 11 || c == Char.ofNat 12

/-- Python `s.strip()`. -/
def pyStrip (s : String) : String :=
  String.mk (((s.toList.dropWhile isPySpace).reverse.dropWhile isPySpace).reverse)

/-- Python `token.rstrip('%')`. -/
def rstripPercent (s : String) : String :=
  String.mk ((s.toList.reverse.dropWhile (fun c => c == '%')).reverse)

/-- Python `s.lower()` (ASCII case folding; sufficient for the markers used). -/
def pyLower (s : String) : String := String.mk (s.toList.map Char.toLower)

/-- Helper for `pySplitWs`. -/
def splitWsGo : List Char → List Char → List String
  | acc, [] => if acc.isEmpty then [] else [String.mk acc.reverse]
  | acc, c :: rest =>
    if isPySpace c then
      if acc.isEmpty then splitWsGo [] rest
      else String.mk acc.reverse :: splitWsGo [] rest
    else splitWsGo (c :: acc) rest

/-- Python `s.split()` (split on whitespace runs, dropping empty fields). -/
def pySplitWs (s : String) : List String := splitWsGo [] s.toList

/-- Helper for `pySplitChar`. -/
def splitCharGo (sep : Char) : List Char → List Char → List String
  | acc, [] => [String.mk acc.reverse]
  | acc, c :: rest =>
    if c == sep then String.mk acc.reverse :: splitCharGo sep [] rest
    else splitCharGo sep (c :: acc) rest

/-- Python `s.split(sep)` for a one-character separator, keeping empty fields. -/
def pySplitChar (s : String) (sep : Char) : List String := splitCharGo sep [] s.toList

/-- Index of the first occurrence of `pat` in `l`, if any. -/
def findSubIdx (pat : List Char) : List Char → Option ℕ
  | [] => if pat.isEmpty then some 0 else none
  | c :: rest =>
    if listStartsWith pat (c :: rest) then some 0
    else (findSubIdx pat rest).map (· + 1)

/-- Python `s.split(sep, 1)` restricted to the found case: the text before and
after the first occurrence of `sep`. `none` when `sep` does not occur. -/
def pySplitOnce (s sep : String) : Option (String × String) :=
  match findSubIdx sep.toList s.toList with
  | none => none
  | some i =>
    some (String.mk (s.toList.take i), String.mk (s.toList.drop (i + sep.toList.length)))

/-- Python `os.path.basename` (both separators accepted; the app targets
Windows but builds paths with `os.path.join`). -/
def pyBasename (p : String) : String :=
  String.mk ((p.toList.reverse.takeWhile (fun c => c != '/' && c != '\\')).reverse)

/-! ### Kernel-computable rational numbers

Python floats are modelled by explicit fractions with positive denominators.
(Mathlib's `ℚ` normalizes through `Nat.gcd`, which the kernel cannot reduce,
so concrete runs could not be evaluated inside proofs with it; `PyF` keeps all
arithmetic in kernel-reducible `ℤ` operations.) Every `PyF` produced by the
embedding has a positive denominator; `toRat` maps into `ℚ` for statements. -/

structure PyF where
  num : ℤ
  den : ℤ
  deriving DecidableEq

/-- The rational value of a `PyF`. -/
def PyF.toRat (a : PyF) : ℚ := (a.num : ℚ) / (a.den : ℚ)

def PyF.ofInt (n : ℤ) : PyF := ⟨n, 1⟩

def PyF.add (a b : PyF) : PyF := ⟨a.num * b.den + b.num * a.den, a.den * b.den⟩

def PyF.mul (a b : PyF) : PyF := ⟨a.num * b.num, a.den * b.den⟩

/-- Division; only ever applied to divisors with positive value here. -/
def PyF.div (a b : PyF) : PyF := ⟨a.num * b.den, a.den * b.num⟩

def PyF.neg (a : PyF) : PyF := ⟨-a.num, a.den⟩

/-- `a ≤ b` by cross multiplication (valid for positive denominators). -/
def PyF.leB (a b : PyF) : Bool := decide (a.num * b.den ≤ b.num * a.den)

/-- Python truthiness of a float: zero is falsy. -/
def PyF.isZeroB (a : PyF) : Bool := a.num == 0

/-- Python `int(x)`: truncation toward zero (denominator positive). -/
def PyF.trunc (a : PyF) : ℤ := a.num.tdiv a.den

/-! ### Python numeric primitives -/

/-- Numeric value of a digit string. -/
def digitsVal (ds : List Char) : ℕ := ds.foldl (fun a c => a * 10 + (c.toNat - 48)) 0

/-- The fraction `intDigits.fracDigits` (scaled by `10^exp`). -/
def mkDecimal (ipv fpv : ℕ) (fracLen : ℕ) (exp : ℤ) : PyF :=
  let base : PyF := ⟨(ipv : ℤ) * (10 : ℤ) ^ fracLen + (fpv : ℤ), (10 : ℤ) ^ fracLen⟩
  if 0 ≤ exp then ⟨base.num * (10 : ℤ) ^ exp.toNat, base.den⟩
  else ⟨base.num, base.den * (10 : ℤ) ^ (-exp).toNat⟩

/-- Python `float(s)` on decimal/scientific forms. (`inf`/`nan` and the
underscore digit-group syntax are not modelled; no claim concerns them.) -/
def pyParseFloat (s : String) : Option PyF :=
  let cs := ((s.toList.dropWhile isPySpace).reverse.dropWhile isPySpace).reverse
  let signAndRest : Bool × List Char :=
    match cs with
    | '-' :: r => (true, r)
    | '+' :: r => (false, r)
    | r => (false, r)
  let neg := signAndRest.1
  let cs0 := signAndRest.2
  let ip := cs0.takeWhile Char.isDigit
  let cs1 := cs0.dropWhile Char.isDigit
  let fpAndRest : List Char × List Char :=
    match cs1 with
    | '.' :: r => (r.takeWhile Char.isDigit, r.dropWhile Char.isDigit)
    | r => ([], r)
  let fp := fpAndRest.1
  let cs2 := fpAndRest.2
  if ip.isEmpty && fp.isEmpty then none
  else
    let expAndRest : Option (ℤ × List Char) :=
      match cs2 with
      | 'e' :: r | 'E' :: r =>
        let esign : Bool × List Char :=
          match r with
          | '-' :: t => (true, t)
          | '+' :: t => (false, t)
          | t => (false, t)
        let ed := esign.2.takeWhile Char.isDigit
        let r2 := esign.2.dropWhile Char.isDigit
        if ed.isEmpty then none
        else some ((if esign.1 then -(digitsVal ed : ℤ) else (digitsVal ed : ℤ)), r2)
      | r => some (0, r)
    match expAndRest with
    | none => none
    | some (e, rest) =>
      if !rest.isEmpty then none
      else
        let mag := mkDecimal (digitsVal ip) (digitsVal fp) fp.length e
        some (if neg then mag.neg else mag)

/-- Python `int(s)` on strings: optional surrounding whitespace, optional sign,
decimal digits. -/
def pyParseInt (s : String) : Option ℤ :=
  let cs := ((s.toList.dropWhile isPySpace).reverse.dropWhile isPySpace).reverse
  let signAndRest : Bool × List Char :=
    match cs with
    | '-' :: r => (true, r)
    | '+' :: r => (false, r)
    | r => (false, r)
  let ds := signAndRest.2
  if ds.isEmpty || !ds.all Char.isDigit then none
  else some (if signAndRest.1 then -(digitsVal ds : ℤ) else (digitsVal ds : ℤ))

/-- Round to the nearest integer, ties to even — the rounding used by Python's
fixed-point string formatting (denominator positive). -/
def roundHalfEven (q : PyF) : ℤ :=
  let f := q.num.fdiv q.den
  let r := q.num - f * q.den        -- remainder in [0, den)
  if 2 * r < q.den then f
  else if q.den < 2 * r then f + 1
  else if f % 2 = 0 then f else f + 1

/-- Two-digit zero padding of a natural number. -/
def natPad2 (n : ℕ) : String := if n < 10 then "0" ++ toString n else toString n

/-- Helper for `fmtFixed2`: render `n` hundredths as a fixed two-decimal string. -/
def fmtFixed2Nat (n : ℕ) : String := toString (n / 100) ++ "." ++ natPad2 (n % 100)

/-- Python `f"{v:.2f}"`. -/
def fmtFixed2 (q : PyF) : String :=
  let n := roundHalfEven ⟨q.num * 100, q.den⟩
  if n < 0 then "-" ++ fmtFixed2Nat (-n).toNat else fmtFixed2Nat n.toNat

/-- Python `f"{v:.0f}"`. -/
def fmtFixed0 (q : PyF) : String := toString (roundHalfEven q)

/-- Python `f"{z:02d}"`. -/
def intPad2 (z : ℤ) : String :=
  if 0 ≤ z ∧ z < 10 then "0" ++ toString z else toString z

/-! ### Size/speed/ETA helpers of `_DownloadWorker` -/

/-- The prefix match of `re.match(r"([0-9]+(?:\.[0-9]+)?)([KMG]i?B)", token)`
(lines 2642 and 2665): numeric value and unit letter, or `none`. Trailing
characters after the match are ignored, as with `re.match`. -/
def parseSizeToken (s : String) : Option (PyF × Char) :=
  let cs := s.toList
  let ip := cs.takeWhile Char.isDigit
  if ip.isEmpty then none
  else
    let cs1 := cs.dropWhile Char.isDigit
    let fpAndRest : List Char × List Char :=
      match cs1 with
      | '.' :: r =>
        if (r.headD ' ').isDigit then (r.takeWhile Char.isDigit, r.dropWhile Char.isDigit)
        else ([], '.' :: r)
      | r => ([], r)
    let fp := fpAndRest.1
    match fpAndRest.2 with
    | [] => none
    | u :: rest =>
      if u == 'K' || u == 'M' || u == 'G' then
        match (match rest with | 'i' :: t => t | t => t) with
        | 'B' :: _ => some (mkDecimal (digitsVal ip) (digitsVal fp) fp.length 0, u)
        | _ => none
      else none

/-- `_DownloadWorker._humanize_yt_dlp_size` (2636-2658). The source's final
`f"{value} B"` branch is unreachable (the regex admits only K/M/G units), and
the try/except yields `""` exactly when the regex fails. -/
def humanize_yt_dlp_size (token : String) : String :=
  match parseSizeToken token with
  | none => ""
  | some (value, unit) =>
    if unit == 'G' then fmtFixed2 value ++ " GB"
    else if unit == 'M' then fmtFixed2 value ++ " MB"
    else fmtFixed0 value ++ " KB"

/-- `_DownloadWorker._size_token_to_bytes` (2660-2679), base-1024 multipliers.
The `factor = 1.0` default of the source is unreachable for the same reason. -/
def size_token_to_bytes (token : String) : Option PyF :=
  match parseSizeToken token with
  | none => none
  | some (value, unit) =>
    let factor : PyF :=
      if unit == 'K' then .ofInt 1024
      else if unit == 'M' then .ofInt (1024 ^ 2)
      else if unit == 'G' then .ofInt (1024 ^ 3)
      else .ofInt 1
    some (value.mul factor)

/-- `_DownloadWorker._humanize_bytes` (2681-2692). -/
def humanize_bytes (nbytes : PyF) : String :=
  if (PyF.ofInt (1024 ^ 3)).leB nbytes then
    fmtFixed2 (nbytes.div (.ofInt (1024 ^ 3))) ++ " GB"
  else if (PyF.ofInt (1024 ^ 2)).leB nbytes then
    fmtFixed2 (nbytes.div (.ofInt (1024 ^ 2))) ++ " MB"
  else if (PyF.ofInt 1024).leB nbytes then
    fmtFixed0 (nbytes.div (.ofInt 1024)) ++ " KB"
  else toString nbytes.trunc ++ " B"

/-- `_DownloadWorker._humanize_speed` (2694-2706): `'2.31MiB/s' ↦ '2.31 MB/s'`;
tokens the size helper rejects are returned unchanged. -/
def humanize_speed (token : String) : String :=
  if pyEndsWith (pyLower token) "/s" then
    let base := String.mk (token.toList.dropLast.dropLast)
    let text := humanize_yt_dlp_size base
    if text != "" then text ++ "/s" else token
  else token

/-- `_DownloadWorker._format_eta` (2708-2733). Any parse failure reproduces the
source's `except: return eta_token or ""`, which is the token itself whenever
the token is nonempty and `""` when it is empty — in both cases the token
unchanged. -/
def format_eta (eta_token : String) : String :=
  match pySplitChar eta_token ':' with
  | [mm, ss] =>
    match pyParseInt mm, pyParseInt ss with
    | some m, some s => intPad2 m ++ ":" ++ intPad2 s
    | _, _ => eta_token
  | [hh, mm, ss] =>
    match pyParseInt hh, pyParseInt mm, pyParseInt ss with
    | some h, some m, some s => toString h ++ ":" ++ intPad2 m ++ ":" ++ intPad2 s
    | _, _, _ => eta_token
  | _ =>
    match pyParseFloat eta_token with
    | none => eta_token
    | some q =>
      let secs := q.trunc
      if 3600 ≤ secs then
        toString (Int.fdiv secs 3600) ++ ":" ++ intPad2 (Int.fdiv (Int.emod secs 3600) 60)
          ++ ":" ++ intPad2 (Int.emod secs 60)
      else
        intPad2 (Int.fdiv secs 60) ++ ":" ++ intPad2 (Int.emod secs 60)

/-- `_DownloadWorker._get_last_progress` (2630-2634). Its docstring says it
returns the last emitted progress value, but the body returns the constant 80
("Valor predeterminado durante la conversión"). -/
def get_last_progress : ℤ := 80

/-! ### Format/quality resolver (lines 2242-2259 of `_DownloadWorker.run`) -/

/-- The mode-to-format-selector resolution at the top of `_DownloadWorker.run`. -/
def resolveFormat (mode : String) : String :=
  if mode == "video_best" then
    "bv*[ext=mp4]+ba[ext=m4a]/bv*+ba/b[ext=mp4]/b"
  else if pyStartsWith mode "video_" then
    let res := (pySplitChar mode '_').getD 1 ""
    ("bestvideo[height<=" ++ res ++ "][ext=mp4]+bestaudio[ext=m4a]/bestvideo[height<="
      ++ res ++ "]+bestaudio/best[height<=" ++ res ++ "][ext=mp4]/best[height<="
      ++ res ++ "]/best[ext=mp4]") ++ "/best"
  else if pyStartsWith mode "mp3_" then "bestaudio/best"
  else if mode == "m4a_best" then "bestaudio[ext=m4a]/bestaudio/best"
  else if mode == "ogg_best" then "bestaudio/best"
  else if mode == "wma_best" then "bestaudio/best"
  else "b[ext=mp4]/b"

/-- Whether `mode` hits one of the explicit branches of the resolver; the
negation selects the unknown-preset fallback. -/
def knownMode (mode : String) : Bool :=
  mode == "video_best" || pyStartsWith mode "video_" || pyStartsWith mode "mp3_"
    || mode == "m4a_best" || mode == "ogg_best" || mode == "wma_best"

/-- The final alternative of a yt-dlp format selector: the text after the last
`/` of the fallback chain. -/
def lastAlternative (s : String) : String :=
  String.mk ((s.toList.reverse.takeWhile (fun c => c != '/')).reverse)

/-! ### Line classification (the string tests of the `run` loop body) -/

/-- `conversion_indicators` (lines 2544-2548). -/
def conversionIndicators : List String :=
  ["Deleting original file", "Correcting container", "Fixing DASH",
   "Merging formats", "Converting", "Postprocessing", "Extracting audio",
   "Destination:", "Writing metadata", "ffmpeg", "ETA", "at"]

/-- All string observations the loop body (lines 2375-2563) makes of a single
already-stripped stdout line. `stepCore` consumes this record; `classify`
computes it from the line. -/
structure LineFeatures where
  raw : String := ""
  hasErrorMark : Bool := false          -- "ERROR:" in line or "Error:" in line
  hasNoFormats : Bool := false          -- "No video formats found" in line
  hasReqFmtNA : Bool := false           -- "requested format not available" in line
  hasUnsupported : Bool := false        -- "Unsupported URL" in line
  hasNotValidURL : Bool := false        -- "is not a valid URL" in line
  hasPrivate : Bool := false            -- "Private video" in line
  hasSignIn : Bool := false             -- "Sign in to confirm your age" in line
  hasThisUnavailable : Bool := false    -- "This video is unavailable" in line
  hasVideoUnavailable : Bool := false   -- "Video unavailable" in line
  hasFmtNA : Bool := false              -- "format not available" in line
  hasAlreadyDl : Bool := false          -- "has already been downloaded" in line
  hasWarnMark : Bool := false           -- "WARNING:" in line
  hasReqFmt : Bool := false             -- "requested format" in line
  hasSkipping : Bool := false           -- "Skipping" in line
  hasAlreadyExists : Bool := false      -- "already exists" in line
  hasFileAlreadyExists : Bool := false  -- "file already exists" in line
  isDest : Bool := false                -- line.startswith("[download] Destination:")
  destPath : String := ""               -- line.split("Destination:", 1)[1].strip()
  isPct : Bool := false                 -- line.startswith("[download]") and "%" in line
  pctTok : Option String := none        -- first split() token ending '%', rstripped of '%'
  hasOf : Bool := false                 -- " of " in line
  ofTok : Option String := none         -- line.split(" of ", 1)[1].split()[0] (none: IndexError)
  hasAt : Bool := false                 -- " at " in line
  atTok : Option String := none         -- line.split(" at ", 1)[1].split()[0] (none: IndexError)
  hasEtaMark : Bool := false            -- " ETA " in line
  etaTok : String := ""                 -- inner try at 2509-2514; "" on its except
  is100 : Bool := false                 -- line.startswith("[download] 100%")
  hasDestAnywhere : Bool := false       -- "Destination:" in line
  isConvMarker : Bool := false          -- "Extracting audio" in line or "Merging formats" in line
  hasPostInd : Bool := false            -- any conversion indicator in line
  hasPostProcess : Bool := false        -- "Post-process file" in line
  hasFinishedDl : Bool := false         -- "Finished downloading" in line
  deriving DecidableEq

/-- Compute the `LineFeatures` of one stripped line. -/
def classify (line : String) : LineFeatures :=
  { raw := line
    hasErrorMark := pyIn "ERROR:" line || pyIn "Error:" line
    hasNoFormats := pyIn "No video formats found" line
    hasReqFmtNA := pyIn "requested format not available" line
    hasUnsupported := pyIn "Unsupported URL" line
    hasNotValidURL := pyIn "is not a valid URL" line
    hasPrivate := pyIn "Private video" line
    hasSignIn := pyIn "Sign in to confirm your age" line
    hasThisUnavailable := pyIn "This video is unavailable" line
    hasVideoUnavailable := pyIn "Video unavailable" line
    hasFmtNA := pyIn "format not available" line
    hasAlreadyDl := pyIn "has already been downloaded" line
    hasWarnMark := pyIn "WARNING:" line
    hasReqFmt := pyIn "requested format" line
    hasSkipping := pyIn "Skipping" line
    hasAlreadyExists := pyIn "already exists" line
    hasFileAlreadyExists := pyIn "file already exists" line
    isDest := pyStartsWith line "[download] Destination:"
    destPath :=
      match pySplitOnce line "Destination:" with
      | some pr => pyStrip pr.2
      | none => ""
    isPct := pyStartsWith line "[download]" && pyIn "%" line
    pctTok := ((pySplitWs line).find? (fun t => pyEndsWith t "%")).map rstripPercent
    hasOf := pyIn " of " line
    ofTok :=
      match pySplitOnce line " of " with
      | some pr => (pySplitWs pr.2).head?
      | none => none
    hasAt := pyIn " at " line
    atTok :=
      match pySplitOnce line " at " with
      | some pr => (pySplitWs pr.2).head?
      | none => none
    hasEtaMark := pyIn " ETA " line
    etaTok :=
      match pySplitOnce line " ETA " with
      | some pr => ((pySplitWs pr.2).head?).getD ""
      | none => ""
    is100 := pyStartsWith line "[download] 100%"
    hasDestAnywhere := pyIn "Destination:" line
    isConvMarker := pyIn "Extracting audio" line || pyIn "Merging formats" line
    hasPostInd := conversionIndicators.any (fun p => pyIn p line)
    hasPostProcess := pyIn "Post-process file" line
    hasFinishedDl := pyIn "Finished downloading" line }

/-! ### Worker loop state and events -/

/-- The loop-relevant mutable state of one `_DownloadWorker.run` invocation:
instance attributes set in `__init__` (2146-2152) plus the loop locals
initialized at 2353-2361. -/
structure WState where
  downloadCompleted : Bool := false
  conversionStarted : Bool := false
  downloadStarted : Bool := false      -- self._download_started
  realProgress : Bool := false         -- self._real_progress_detected
  lastProgressValue : ℤ := 0           -- self._last_progress_value
  errorDetected : Bool := false
  errorMessage : String := ""
  lastPath : Option String := none     -- the local last_path
  totalSizeText : String := ""
  totalSizeBytes : Option PyF := none
  downloadSizeBytes : PyF := .ofInt 0  -- self._download_size_bytes
  lastPctVal : Option PyF := none
  deriving DecidableEq

/-- One outward Qt signal emission of the worker. -/
inductive Emission where
  | progress (value : ℤ)               -- progressChanged
  | sizeText (text : String)           -- sizeTextChanged
  | stats (text : String)              -- downloadStatsChanged
  | finishedSig (name path : String)   -- finished
  | errorSig (message : String)        -- errorOccurred
  deriving DecidableEq

/-- One record appended to the `ytdlp_debug.log` diagnostic file. -/
inductive LogEntry where
  | errorLine (raw : String)           -- "[ERROR] {line}" (2385-2386)
  | dupLine (raw : String)             -- "[ERROR DUPLICADO] {line}" (2421-2422)
  | traceback (message : String)       -- generic handler's traceback (2623-2624)
  deriving DecidableEq

/-- Outcome of the error-translation `if/elif` chain at 2391-2443. -/
inductive ChainOut where
  | raiseMsg (m : String)
  | dupErr
  | benign
  deriving DecidableEq

/-- Message set at 2417. -/
def dupMessage : String :=
  "El archivo ya existe. Por favor, elimina el archivo existente o elige un nombre diferente."

/-- The `if/elif` chain at 2391-2443, first match wins. Branches after the
duplicate-file one only print diagnostics, so they fold into `benign`. -/
def chainOutcome (f : LineFeatures) (downloadCompleted : Bool) : ChainOut :=
  if f.hasNoFormats || f.hasReqFmtNA then
    .raiseMsg "No se encontraron formatos de video disponibles para esta URL"
  else if f.hasUnsupported || f.hasNotValidURL then
    .raiseMsg "La URL proporcionada no es válida o no está soportada"
  else if f.hasPrivate || f.hasSignIn then
    .raiseMsg "Este video es privado o requiere verificación de edad"
  else if f.hasThisUnavailable then
    .raiseMsg "Este video no está disponible"
  else if f.hasVideoUnavailable then
    .raiseMsg "Video no disponible. Puede haber sido eliminado o marcado como privado"
  else if f.hasReqFmtNA || f.hasFmtNA then .benign
  else if f.hasAlreadyDl && !downloadCompleted then .benign
  else if f.hasWarnMark && (f.hasFmtNA || f.hasReqFmt) then .benign
  else if f.hasSkipping && f.hasFmtNA then .benign
  else if f.hasAlreadyExists || f.hasFileAlreadyExists then .dupErr
  else .benign

/-- The progress/size parsing block at 2459-2528. The surrounding
`try/except: pass` swallows failures per line, keeping the emissions and
assignments already performed before the failure point; the two abort points
are `float(pct_str)` and the `split()[0]` indexing after " of "/" at ". -/
def pctBlock (s0 : WState) (f : LineFeatures) : WState × List Emission :=
  -- percent token (2464-2484)
  let step1 : WState × List Emission × Bool :=
    match f.pctTok with
    | some t =>
      match pyParseFloat t with
      | none => (s0, [], true)
      | some q =>
        let pctInt := q.trunc
        let adjusted := ((PyF.ofInt pctInt).mul ⟨3, 4⟩).trunc   -- int(pct_int * 0.75)
        let s1 := { s0 with lastPctVal := some q }
        let s2 :=
          if s1.lastProgressValue < pctInt then
            { s1 with realProgress := true, lastProgressValue := pctInt }
          else s1
        (s2, [Emission.progress (max 5 (min 75 adjusted))], false)
    | none => (s0, [], false)
  if step1.2.2 then (step1.1, step1.2.1) else
  let s := step1.1
  let es := step1.2.1
  -- total size after " of " (2487-2499)
  let step2 : WState × List Emission × Bool :=
    if f.hasOf then
      match f.ofTok with
      | none => (s, es, true)
      | some tok =>
        let human := humanize_yt_dlp_size tok
        let upd : WState × List Emission :=
          if human != "" && human != s.totalSizeText then
            ({ s with totalSizeText := human },
             es ++ (if !s.downloadCompleted then [Emission.sizeText human] else []))
          else (s, es)
        let b := size_token_to_bytes tok
        let s2 := { upd.1 with totalSizeBytes := b }
        let s3 :=
          match b with
          | some v => if !v.isZeroB then { s2 with downloadSizeBytes := v } else s2
          | none => s2
        (s3, upd.2, false)
    else (s, es, false)
  if step2.2.2 then (step2.1, step2.2.1) else
  let s := step2.1
  let es := step2.2.1
  -- speed after " at " (2501-2505)
  let step3 : String × Bool :=
    if f.hasAt then
      match f.atTok with
      | none => ("", true)
      | some tok => (humanize_speed tok, false)
    else ("", false)
  if step3.2 then (s, es) else
  let speedText := step3.1
  -- ETA token (2507-2514; the inner try/except is reflected in etaTok)
  let etaText := if f.hasEtaMark then f.etaTok else ""
  -- composite status (2516-2526)
  if s.totalSizeText != "" then
    match s.lastPctVal, s.totalSizeBytes with
    | some q, some b =>
      if !b.isZeroB then
        let downloaded := (q.div (.ofInt 100)).mul b
        let st0 := "Descargando… " ++ humanize_bytes downloaded ++ " de " ++ s.totalSizeText
        let st1 := if speedText != "" then st0 ++ " — " ++ speedText else st0
        let st2 :=
          if etaText != "" then
            let etaFmt := format_eta etaText
            if etaFmt != "" then st1 ++ " — " ++ etaFmt ++ " restantes" else st1
          else st1
        (s, es ++ [Emission.stats st2])
      else (s, es)
    | _, _ => (s, es)
  else (s, es)

/-- Result of processing one line. `raised = some m` models an exception
escaping the loop body into the handlers at 2611-2628. -/
structure StepOut where
  state : WState
  emits : List Emission
  log : List LogEntry
  raised : Option String
  deriving DecidableEq

/-- The body of the `for line in proc.stdout` loop (2375-2563) after the
cancellation check, for one stripped line. `elapsed` is the value of
`current_time - last_progress_time > 1.0` read at 2447. -/
def stepCore (s0 : WState) (f : LineFeatures) (elapsed : Bool) : StepOut :=
  -- error-marker detection and logging (2379-2388)
  let sA :=
    if f.hasErrorMark then { s0 with errorDetected := true, errorMessage := f.raw } else s0
  let lgA : List LogEntry := if f.hasErrorMark then [LogEntry.errorLine f.raw] else []
  -- error-translation chain (2391-2443)
  match chainOutcome f sA.downloadCompleted with
  | .raiseMsg m => { state := sA, emits := [], log := lgA, raised := some m }
  | co =>
    let sB :=
      match co with
      | .dupErr => { sA with errorDetected := true, errorMessage := dupMessage }
      | _ => sA
    let lgB := match co with | .dupErr => lgA ++ [LogEntry.dupLine f.raw] | _ => lgA
    -- silent-gap crawl (2447-2451)
    let es0 : List Emission :=
      if elapsed && sB.downloadCompleted && sB.conversionStarted then
        [Emission.progress (min 94 (get_last_progress + 1))]
      else []
    -- destination line (2453-2456)
    let sd : WState × List Emission :=
      if f.isDest then
        ({ sB with lastPath := some f.destPath, downloadStarted := true },
         es0 ++ [Emission.progress 5])
      else (sB, es0)
    -- percent/size/speed/ETA block (2459-2528)
    let sp : WState × List Emission :=
      if f.isPct then
        let r := pctBlock sd.1 f
        (r.1, sd.2 ++ r.2)
      else sd
    -- download finished marker (2531-2534)
    let sf : WState × List Emission :=
      if f.is100 || (f.hasDestAnywhere && sp.1.downloadCompleted) then
        ({ sp.1 with downloadCompleted := true }, sp.2 ++ [Emission.progress 75])
      else sp
    -- conversion start (2537-2541)
    let sg : WState × List Emission :=
      if f.isConvMarker then
        ({ sf.1 with downloadCompleted := true, conversionStarted := true },
         sf.2 ++ [Emission.progress 80])
      else sf
    -- postprocessing indicators (2544-2556)
    let sh : WState × List Emission :=
      if f.hasPostInd && sg.1.downloadCompleted then
        ({ sg.1 with conversionStarted := true },
         sg.2 ++ [Emission.progress (min 94 (get_last_progress + 1))])
      else sg
    -- finalization markers (2559-2563)
    let esI :=
      if sh.1.downloadCompleted && (f.hasAlreadyDl || f.hasPostProcess || f.hasFinishedDl) then
        sh.2 ++ [Emission.progress 95]
      else sh.2
    { state := sh.1, emits := esI, log := lgB, raised := none }

/-- Result of the whole line-consumption loop. -/
structure CoreOut where
  state : WState
  emits : List Emission
  log : List LogEntry
  raised : Option String
  deriving DecidableEq

/-- Run the loop body over a list of (features, elapsed-flag) pairs,
short-circuiting at the first raised exception. -/
def runCore : WState → List (LineFeatures × Bool) → CoreOut
  | s, [] => ⟨s, [], [], none⟩
  | s, fe :: rest =>
    let o := stepCore s fe.1 fe.2
    match o.raised with
    | some m => ⟨o.state, o.emits, o.log, some m⟩
    | none =>
      let r := runCore o.state rest
      ⟨r.state, o.emits ++ r.emits, o.log ++ r.log, r.raised⟩

/-! ### Filesystem model and post-run validation -/

/-- One entry of the modelled filesystem. -/
structure FsEntry where
  dir : String
  name : String
  isFile : Bool
  size : ℕ
  ctime : ℕ
  deriving DecidableEq

/-- `os.path.join(e.dir, e.name)`, modelled with `/`. -/
def fsFullPath (e : FsEntry) : String := e.dir ++ "/" ++ e.name

/-- `os.path.exists(p)`. -/
def fsExists (fs : List FsEntry) (p : String) : Bool :=
  fs.any (fun e => fsFullPath e == p)

/-- `os.path.getsize(p)` (0 when absent; only read behind an existence check). -/
def fsSize (fs : List FsEntry) (p : String) : ℕ :=
  match fs.find? (fun e => fsFullPath e == p) with
  | some e => e.size
  | none => 0

/-- `os.path.isfile(p)`. -/
def fsIsFile (fs : List FsEntry) (p : String) : Bool :=
  match fs.find? (fun e => fsFullPath e == p) with
  | some e => e.isFile
  | none => false

/-- `glob.glob(os.path.join(dir, "*"))`: all entries of `dir`, except
dot-prefixed names (glob's hidden-file rule). -/
def globAll (fs : List FsEntry) (dir : String) : List FsEntry :=
  fs.filter (fun e => e.dir == dir && !pyStartsWith e.name ".")

/-- `max(output_files, key=os.path.getctime)`: the first entry of maximal
ctime (Python's `max` keeps the earliest maximum). -/
def latestByCtime : List FsEntry → Option FsEntry
  | [] => none
  | e :: rest => some (rest.foldl (fun acc x => if acc.ctime < x.ctime then x else acc) e)

def msgNoArtifact : String :=
  "Error: La descarga se completó pero no se encontró ningún archivo. La calidad solicitada puede no estar disponible."

def msgNoValidArtifact : String :=
  "Error: La descarga se completó pero no se encontró ningún archivo válido. La calidad solicitada puede no estar disponible."

def msgTooSmall : String :=
  "Error: El archivo descargado es demasiado pequeño. La calidad solicitada puede no estar disponible para este video."

def msgNotStarted : String :=
  "Error: La descarga no comenzó realmente. La calidad solicitada puede no estar disponible."

def msgNoRealProgress : String :=
  "Error: No se detectó progreso real de descarga. La calidad solicitada puede no estar disponible."

/-- The post-run artifact validation at 2577-2606, executed after an exit-0 run
with no recorded fatal line: recover or check the output path, reject artifacts
under 1 KiB, reject runs whose download never started or showed no genuine
percent increase. The 10%-of-expected-size comparison at 2605 only prints a
warning, so it has no observable effect here. On success returns the validated
final path. -/
def postValidate (fs : List FsEntry) (output : String) (lastPath : Option String)
    (downloadStarted realProgress : Bool) : Except String String :=
  let missing :=
    match lastPath with
    | none => true
    | some p => p == "" || !fsExists fs p
  let recovered : Except String String :=
    if missing then
      match latestByCtime (globAll fs output) with
      | none => .error msgNoArtifact
      | some latest =>
        if latest.isFile then .ok (fsFullPath latest) else .error msgNoValidArtifact
    else .ok ((lastPath.getD ""))
  match recovered with
  | .error m => .error m
  | .ok lp =>
    if lp != "" && fsExists fs lp then
      if fsSize fs lp < 1024 then .error msgTooSmall
      else if !downloadStarted then .error msgNotStarted
      else if !realProgress then .error msgNoRealProgress
      else .ok lp
    else .ok lp

/-! ### The full worker run -/

/-- Wrapper applied by the generic exception handler at 2617-2628. -/
def wrapUnexpected (m : String) : String :=
  "Error inesperado: " ++ m ++ ". Consulta el archivo de log para más detalles."

/-- Message raised at 2574 for a non-zero exit status. -/
def subprocessFailMsg (rc : ℤ) : String :=
  "El proceso de descarga falló con código de error " ++ toString rc

/-- The observable behavior of one `_DownloadWorker.run` (2222-2628) whose
external process was launched successfully, produced the given stdout `lines`
(each paired with the elapsed-gap flag read at 2447) and exit status
`exitCode`, with `fs` the filesystem state at validation time.
`cancelledFrom = some i` means the asynchronous `self._cancelled` flag was
first observed set at loop iteration `i` (the run then returns silently after
cleanup, emitting no terminal signal). -/
def runFull (feats : List (LineFeatures × Bool)) (cancelledFrom : Option ℕ)
    (exitCode : ℤ) (fs : List FsEntry) (output url : String) : CoreOut :=
  let processed :=
    match cancelledFrom with
    | some i => feats.take i
    | none => feats
  let r := runCore {} processed
  let body := Emission.progress 1 :: r.emits   -- initial progressChanged.emit(1) at 2348
  match r.raised with
  | some m =>
    ⟨r.state, body ++ [Emission.errorSig (wrapUnexpected m)],
      r.log ++ [LogEntry.traceback m], some m⟩
  | none =>
    match cancelledFrom with
    | some _ => ⟨r.state, body, r.log, none⟩
    | none =>
      if r.state.errorDetected then
        ⟨r.state, body ++ [Emission.errorSig (wrapUnexpected r.state.errorMessage)],
          r.log ++ [LogEntry.traceback r.state.errorMessage], none⟩
      else if exitCode != 0 then
        ⟨r.state, body ++ [Emission.errorSig (wrapUnexpected (subprocessFailMsg exitCode))],
          r.log ++ [LogEntry.traceback (subprocessFailMsg exitCode)], none⟩
      else
        match postValidate fs output r.state.lastPath r.state.downloadStarted
            r.state.realProgress with
        | .error m =>
          ⟨r.state, body ++ [Emission.errorSig (wrapUnexpected m)],
            r.log ++ [LogEntry.traceback m], none⟩
        | .ok lp =>
          let finalPath := if lp != "" then lp else output
          let finalName := pyBasename (if lp != "" then lp else url)
          ⟨r.state, body ++ [Emission.progress 100, Emission.finishedSig finalName finalPath],
            r.log, none⟩

/-- `runFull` driven directly by raw stdout lines (stripped at 2375 and
classified as in the loop body). -/
def runWorker (lines : List (String × Bool)) (cancelledFrom : Option ℕ)
    (exitCode : ℤ) (fs : List FsEntry) (output url : String) : CoreOut :=
  runFull (lines.map (fun le => (classify (pyStrip le.1), le.2))) cancelledFrom
    exitCode fs output url

/-- The percent value of a `progressChanged` emission. -/
def progressOf : Emission → Option ℤ
  | .progress v => some v
  | _ => none

/-- The percent values carried by the `progressChanged` emissions of a run. -/
def percentsOf (o : CoreOut) : List ℤ := o.emits.filterMap progressOf

/-- Terminal emissions: `finished` or `errorOccurred`. -/
def isTerminal : Emission → Bool
  | .finishedSig _ _ => true
  | .errorSig _ => true
  | _ => false

/-! ### Cancellation and partial-file cleanup -/

/-- State of the external process handle. -/
inductive ProcSt where
  | running
  | exited (code : ℤ)
  | terminatedGraceful
  | killed
  deriving DecidableEq

/-- `Popen.poll()`: `none` iff the process is still running. -/
def procPoll : ProcSt → Option ℤ
  | .running => none
  | .exited c => some c
  | .terminatedGraceful => some (-15)
  | .killed => some (-9)

/-- The cancel-relevant state of a `_DownloadWorker`. -/
structure Worker where
  output : String
  cancelled : Bool := false
  proc : Option ProcSt := none
  deriving DecidableEq

/-- Matching of `glob.glob(os.path.join(dir, "*" ++ suffix))` against an entry
name: any non-hidden name with the suffix. -/
def globStarMatch (suffix : String) (name : String) : Bool :=
  !pyStartsWith name "." && pyEndsWith name suffix

/-- `_DownloadWorker._cleanup_partial_files` (2175-2220): glob `*.part` and
`*.ytdl` in the output directory and `os.remove` each match, swallowing
per-file failures (`os.remove` succeeds on regular files and raises on
directories, which therefore survive). The `self._last_path` branch at
2190-2199 is dead code: `run()` keeps `last_path` in a local variable and the
attribute is never assigned, so `hasattr` is always false. -/
def cleanupPartFiles (fs : List FsEntry) (output : String) : List FsEntry :=
  fs.filter (fun e =>
    !(e.dir == output && e.isFile
      && (globStarMatch ".part" e.name || globStarMatch ".ytdl" e.name)))

/-- How the external process reacts to the termination attempts; each `Bool`
models one potential exception site inside `cancel`. -/
structure CancelOracle where
  terminateRaises : Bool
  exitsInGrace : Bool
  killRaises : Bool
  deriving DecidableEq

/-- Process-control actions issued by `cancel`. -/
inductive CAction where
  | terminate
  | kill
  deriving DecidableEq

/-- A Python exception, as far as `cancel`'s handlers distinguish them. -/
inductive PyExc where
  | timeoutExpired
  | generic
  deriving DecidableEq

/-- `_DownloadWorker.cancel` (2154-2173) followed by its unconditional
`_cleanup_partial_files()` call. A `.error` result would model an exception
escaping `cancel()`; the source's `try/except` structure is mirrored: a raise
from `terminate()` is caught by the outer `except Exception: pass`, a
`TimeoutExpired` from `wait(timeout=2)` routes to `kill()`, whose own failures
are swallowed by the inner `except: pass`. -/
def cancelW (w : Worker) (o : CancelOracle) (fs : List FsEntry) :
    Except PyExc (Worker × List FsEntry × List CAction) :=
  let w1 := { w with cancelled := true }
  let pa : Option ProcSt × List CAction :=
    match w1.proc with
    | some ProcSt.running =>
      if o.terminateRaises then (some ProcSt.running, [CAction.terminate])
      else if o.exitsInGrace then (some ProcSt.terminatedGraceful, [CAction.terminate])
      else if o.killRaises then (some ProcSt.running, [CAction.terminate, CAction.kill])
      else (some ProcSt.killed, [CAction.terminate, CAction.kill])
    | p => (p, [])   -- no live process (poll() is not None, or no handle): no-op
  .ok ({ w1 with proc := pa.1 }, cleanupPartFiles fs w1.output, pa.2)

/-! ### Duplicate-file rename resolution -/

/-- `f"{base_name} ({counter}).{extension}"` (line 1414). -/
def uniqueName (base ext : String) (counter : ℕ) : String :=
  base ++ " (" ++ toString counter ++ ")." ++ ext

/-- `f"{base_name}_{timestamp}.{extension}"` (line 1427). -/
def timestampName (base ext : String) (timestamp : ℕ) : String :=
  base ++ "_" ++ toString timestamp ++ "." ++ ext

/-- The `while True` loop of `_generate_unique_filename`, with the remaining
tries as fuel: the source increments `counter` and falls back to the timestamp
name as soon as `counter > 999`, i.e. after trying counters 1..999. -/
def generateUniqueAux (fileExists : String → Bool) (base ext : String) (timestamp : ℕ) :
    ℕ → ℕ → String
  | 0, _ => timestampName base ext timestamp
  | fuel + 1, counter =>
    let filename := uniqueName base ext counter
    if !fileExists filename then filename
    else generateUniqueAux fileExists base ext timestamp fuel (counter + 1)

/-- `DownloadsPage._generate_unique_filename` (1408-1427). `fileExists` is
`os.path.exists(os.path.join(out_dir, filename))` and `timestamp` is
`int(time.time())`. -/
def generate_unique_filename (fileExists : String → Bool) (base ext : String)
    (timestamp : ℕ) : String :=
  generateUniqueAux fileExists base ext timestamp 999 1

/-- `[start, start+len)` as a list, for stating which counters the rename loop
tries. -/
def natRange : ℕ → ℕ → List ℕ
  | _, 0 => []
  | start, len + 1 => start :: natRange (start + 1) len

/-! ### Canonical single-download traces

The feature records below are exactly what `classify` returns for
representative real yt-dlp output lines (witnessed by the `classify_…`
theorems further down); they let the monotonicity statement quantify over
whole families of well-ordered runs. -/

/-- The percent value emitted for an integer raw percent `p`:
`max(5, min(75, int(p * 0.75)))`. -/
def pctEmitInt (p : ℤ) : ℤ := max 5 (min 75 ((PyF.ofInt p).mul ⟨3, 4⟩).trunc)

/-- The percent value emitted for a raw percent `q` on a `[download] …%` line:
`max(5, min(75, int(int(q) * 0.75)))` (lines 2470-2473). -/
def pctEmit (q : PyF) : ℤ := pctEmitInt q.trunc

/-- Features of a `[download] Destination: <path>` line. -/
def featDest (raw path : String) : LineFeatures :=
  { raw := raw, isDest := true, destPath := path, hasDestAnywhere := true,
    hasPostInd := true }

/-- Features of a minimal `[download] <tok>%` progress line (no size/speed/ETA
fields). -/
def featPct (raw tok : String) : LineFeatures :=
  { raw := raw, isPct := true, pctTok := some tok }

/-- Features of a minimal `[download] 100%` completion line. -/
def feat100 (raw : String) : LineFeatures :=
  { raw := raw, isPct := true, pctTok := some "100", is100 := true }

/-- Features of an `Extracting audio` / `Merging formats` stage-transition
line. -/
def featConv (raw : String) : LineFeatures :=
  { raw := raw, isConvMarker := true, hasPostInd := true }

/-- Features of a line containing only a postprocessing indicator. -/
def featInd (raw : String) : LineFeatures :=
  { raw := raw, hasPostInd := true }

/-- Features of a finalization line (`Finished downloading`). -/
def featFinal (raw : String) : LineFeatures :=
  { raw := raw, hasFinishedDl := true }

/-- A well-ordered single-download run: destination lines first, then percent
lines, then completion/stage-transition markers, then postprocessing
indicators, then finalization lines. -/
structure CanonTrace where
  dests : List (String × String) := []       -- (raw line, destination path)
  pcts : List (String × String × PyF) := []  -- (raw line, percent token, parsed value)
  marks100 : List String := []               -- raw "[download] 100%" lines
  conv : Option String := none               -- raw stage-transition line
  inds : List String := []                   -- raw postprocessing indicator lines
  finals : List String := []                 -- raw finalization lines

/-- The feature stream of a canonical trace (elapsed-gap flag false). -/
def canonFeats (t : CanonTrace) : List (LineFeatures × Bool) :=
  t.dests.map (fun rp => (featDest rp.1 rp.2, false))
  ++ (t.pcts.map (fun e => (featPct e.1 e.2.1, false))
  ++ (t.marks100.map (fun r => (feat100 r, false))
  ++ ((match t.conv with | some r => [(featConv r, false)] | none => [])
  ++ (t.inds.map (fun r => (featInd r, false))
  ++ t.finals.map (fun r => (featFinal r, false))))))

/-- Whether the download stage has completed by the end of the canonical
trace's marker segments. -/
def canonDc (t : CanonTrace) : Bool := !t.marks100.isEmpty || t.conv.isSome

/-- The emissions produced by the loop over a canonical trace. -/
def canonEmits (t : CanonTrace) : List Emission :=
  t.dests.map (fun _ => Emission.progress 5)
  ++ (t.pcts.map (fun e => Emission.progress (pctEmit e.2.2))
  ++ (t.marks100.flatMap (fun _ => [Emission.progress 75, Emission.progress 75])
  ++ ((match t.conv with
      | some _ => [Emission.progress 80, Emission.progress 81]
      | none => [])
  ++ ((if canonDc t then t.inds.map (fun _ => Emission.progress 81) else [])
  ++ (if canonDc t then t.finals.map (fun _ => Emission.progress 95) else [])))))

/-- The integer percent values of the loop's emissions over a canonical
trace. -/
def canonPercents (t : CanonTrace) : List ℤ :=
  t.dests.map (fun _ => (5 : ℤ))
  ++ (t.pcts.map (fun e => pctEmit e.2.2)
  ++ (t.marks100.flatMap (fun _ => [(75 : ℤ), 75])
  ++ ((match t.conv with | some _ => [(80 : ℤ), 81] | none => [])
  ++ ((if canonDc t then t.inds.map (fun _ => (81 : ℤ)) else [])
  ++ (if canonDc t then t.finals.map (fun _ => (95 : ℤ)) else [])))))

/-- Boolean non-decreasing check on an integer list. -/
def nonDecB : List ℤ → Bool
  | [] => true
  | [_] => true
  | a :: b :: r => decide (a ≤ b) && nonDecB (b :: r)

/-- The claimed shape of a worker's percent stream: non-decreasing, except for
at most one reset to 0 as the very last percent emission, allowed only when
the run's terminal event is an error. -/
def c1AllowedB (ps : List ℤ) (errTerminal : Bool) : Bool :=
  nonDecB ps || (errTerminal && (ps.getLast?.getD 1 == 0) && nonDecB ps.dropLast)

/-! ## Theorems -/

/-! ### Realizability of the canonical feature records -/

theorem classify_dest_sample :
    classify "[download] Destination: /tmp/a.mp4"
      = featDest "[download] Destination: /tmp/a.mp4" "/tmp/a.mp4" := by decide

theorem classify_pct_sample :
    classify "[download]  12.3%" = featPct "[download]  12.3%" "12.3" := by decide

theorem classify_100_sample :
    classify "[download] 100%" = feat100 "[download] 100%" := by decide

theorem classify_conv_sample :
    classify "Extracting audio" = featConv "Extracting audio" := by decide

theorem classify_ind_sample :
    classify "[ffmpeg] Postprocessing" = featInd "[ffmpeg] Postprocessing" := by decide

theorem classify_final_sample :
    classify "Finished downloading" = featFinal "Finished downloading" := by decide

/-! ### C3: parsing the reference progress line -/

/-- C3: Parsing `"[download]  12.3% of 50.00MiB at 2.31MiB/s ETA 00:40"` from a
fresh worker state emits the percent `int(12.3*0.75)` clamped into `[5,75]`
(which is 9), records a total size of `50.00 × 1024²` bytes computed with
base-1024 multipliers, produces the speed text `"2.31 MB/s"` and the ETA text
`"00:40"`, and the composed status derives the downloaded amount as
percent × total (`12.3/100 × 52428800` bytes, humanized to `"6.15 MB"`). -/
theorem C3_progress_line_parse :
    percentsOf (runCore {}
        [(classify (pyStrip "[download]  12.3% of 50.00MiB at 2.31MiB/s ETA 00:40"), false)])
      = [max 5 (min 75 ((PyF.mk 123 10).mul ⟨3, 4⟩).trunc)] ∧
    max 5 (min 75 ((PyF.mk 123 10).mul ⟨3, 4⟩).trunc) = 9 ∧
    (size_token_to_bytes "50.00MiB").map PyF.toRat = some ((50 : ℚ) * 1024 ^ 2) ∧
    (50 : ℚ) * 1024 ^ 2 = 52428800 ∧
    PyF.toRat (runCore {}
        [(classify (pyStrip "[download]  12.3% of 50.00MiB at 2.31MiB/s ETA 00:40"), false)]).state.downloadSizeBytes
      = 52428800 ∧
    humanize_speed "2.31MiB/s" = "2.31 MB/s" ∧
    format_eta "00:40" = "00:40" ∧
    PyF.toRat ((((runCore {}
        [(classify (pyStrip "[download]  12.3% of 50.00MiB at 2.31MiB/s ETA 00:40"), false)]).state.lastPctVal.getD
          (.ofInt 0)).div (.ofInt 100)).mul
        ((runCore {}
        [(classify (pyStrip "[download]  12.3% of 50.00MiB at 2.31MiB/s ETA 00:40"), false)]).state.totalSizeBytes.getD
          (.ofInt 0)))
      = (123 : ℚ) / 10 / 100 * 52428800 ∧
    (runCore {}
        [(classify (pyStrip "[download]  12.3% of 50.00MiB at 2.31MiB/s ETA 00:40"), false)]).emits
      = [Emission.progress 9, Emission.sizeText "50.00 MB",
         Emission.stats "Descargando… 6.15 MB de 50.00 MB — 2.31 MB/s — 00:40 restantes"] := by
  have hsz : size_token_to_bytes "50.00MiB" = some ⟨5242880000, 100⟩ := by decide
  have hds : (runCore {}
      [(classify (pyStrip "[download]  12.3% of 50.00MiB at 2.31MiB/s ETA 00:40"), false)]).state.downloadSizeBytes
      = ⟨5242880000, 100⟩ := by decide
  have hlp : (runCore {}
      [(classify (pyStrip "[download]  12.3% of 50.00MiB at 2.31MiB/s ETA 00:40"), false)]).state.lastPctVal
      = some ⟨123, 10⟩ := by decide
  have htb : (runCore {}
      [(classify (pyStrip "[download]  12.3% of 50.00MiB at 2.31MiB/s ETA 00:40"), false)]).state.totalSizeBytes
      = some ⟨5242880000, 100⟩ := by decide
  refine ⟨by decide, by decide, ?_, by norm_num, ?_, by decide, by decide, ?_, by decide⟩
  · rw [hsz]
    show some (PyF.toRat ⟨5242880000, 100⟩) = _
    norm_num [PyF.toRat]
  · rw [hds]
    norm_num [PyF.toRat]
  · rw [hlp, htb]
    show PyF.toRat (((PyF.mk 123 10).div (.ofInt 100)).mul ⟨5242880000, 100⟩) = _
    norm_num [PyF.toRat, PyF.div, PyF.mul, PyF.ofInt]

/-! ### C6: the postprocessing crawl is constant, not an increasing ramp -/

/-- C6 (code-bug evidence): after the download stage, every postprocessing
crawl event carries `min(94, _get_last_progress() + 1)`, but
`_get_last_progress` returns the constant 80 even though its docstring says it
returns the last emitted value; consequently two consecutive crawl events both
carry 81 instead of the claimed `min(94, lastEmitted+1)` ramp from 80 toward
94. The trace below (stage transition followed by two postprocessing lines)
shows the emitted percent sequence `[1, 80, 81, 81, 81]`. -/
theorem C6_crawl_constant_81 :
    percentsOf (runWorker
        [("Extracting audio", false), ("[ffmpeg] Postprocessing x", false),
         ("[ffmpeg] Postprocessing y", false)] none 0 [] "/out" "u")
      = [1, 80, 81, 81, 81] ∧
    min 94 (get_last_progress + 1) = 81 := by
  exact ⟨by decide, by decide⟩

/-! ### C7: error lines are translated, the raw line goes to the log -/

/-- C7: Processing `"ERROR: Video unavailable"` aborts the run with a terminal
error whose user-facing message embeds the translated phrase-specific text
("Video no disponible. Puede haber sido eliminado o marcado como privado") and
is not the raw diagnostic line; the raw line is persisted to the diagnostic
log. -/
theorem C7_error_translated :
    (runWorker [("ERROR: Video unavailable", false)] none 0 [] "/out" "u").emits
      = [Emission.progress 1,
         Emission.errorSig (wrapUnexpected
           "Video no disponible. Puede haber sido eliminado o marcado como privado")] ∧
    pyIn "Video no disponible. Puede haber sido eliminado o marcado como privado"
      (wrapUnexpected
        "Video no disponible. Puede haber sido eliminado o marcado como privado") = true ∧
    wrapUnexpected "Video no disponible. Puede haber sido eliminado o marcado como privado"
      ≠ "ERROR: Video unavailable" ∧
    LogEntry.errorLine "ERROR: Video unavailable"
      ∈ (runWorker [("ERROR: Video unavailable", false)] none 0 [] "/out" "u").log := by
  refine ⟨by decide, by decide, by decide, by decide⟩

/-! ### C10: totality and rejection behavior of the token helpers -/

/-- C10: The token-normalization helpers are total functions of their input
(the source's `try/except` fallbacks are the explicit default branches of the
embedding). A size token rejected by the `([0-9]+(?:\.[0-9]+)?)([KMG]i?B)`
prefix match — such as a `~`-prefixed estimate or a `TiB` token — humanizes to
`""` and converts to no byte count, so a progress line carrying such a token
produces no size-text emission and no total-bytes update; an ETA token that
fails to parse is returned unchanged. -/
theorem C10_token_helpers :
    (∀ t : String, parseSizeToken t = none →
        humanize_yt_dlp_size t = "" ∧ size_token_to_bytes t = none) ∧
    (humanize_yt_dlp_size "~12.47MiB" = "" ∧ size_token_to_bytes "~12.47MiB" = none) ∧
    (humanize_yt_dlp_size "1.50TiB" = "" ∧ size_token_to_bytes "1.50TiB" = none) ∧
    (∀ t mm sec : String, pySplitChar t ':' = [mm, sec] →
        pyParseInt mm = none ∨ pyParseInt sec = none → format_eta t = t) ∧
    (∀ t : String, (pySplitChar t ':').length ≠ 2 → (pySplitChar t ':').length ≠ 3 →
        pyParseFloat t = none → format_eta t = t) ∧
    (format_eta "Unknown" = "Unknown" ∧ format_eta "" = "") ∧
    (runCore {}
        [(classify (pyStrip "[download]  12.3% of ~12.47MiB at 2.31MiB/s ETA 00:40"), false)]).emits
      = [Emission.progress 9] ∧
    (runCore {}
        [(classify (pyStrip "[download]  12.3% of ~12.47MiB at 2.31MiB/s ETA 00:40"), false)]).state.totalSizeBytes
      = none ∧
    (runCore {}
        [(classify (pyStrip "[download]  12.3% of ~12.47MiB at 2.31MiB/s ETA 00:40"), false)]).state.downloadSizeBytes
      = .ofInt 0 := by
  refine ⟨?_, by decide, by decide, ?_, ?_, by decide, by decide, by decide, by decide⟩
  · intro t h
    constructor
    · show humanize_yt_dlp_size t = ""
      unfold humanize_yt_dlp_size
      rw [h]
    · show size_token_to_bytes t = none
      unfold size_token_to_bytes
      rw [h]
  · intro t mm sec h h2
    unfold format_eta
    rw [h]
    rcases h2 with h2 | h2
    · rcases hs : pyParseInt sec with _ | v <;> simp [h2, hs]
    · rcases hm : pyParseInt mm with _ | v <;> simp [h2, hm]
  · intro t h2 h3 hf
    unfold format_eta
    rcases hsp : pySplitChar t ':' with _ | ⟨a, _ | ⟨b, _ | ⟨c, _ | d⟩⟩⟩
    · rw [hf]
    · rw [hf]
    · exact absurd (by rw [hsp]; rfl) h2
    · exact absurd (by rw [hsp]; rfl) h3
    · rw [hf]

/-- C10 witness: the rejection behavior at concrete malformed tokens, obtained
by instantiating `C10_token_helpers`. -/
theorem C10_token_helpers_witness :
    (humanize_yt_dlp_size "estimate" = "" ∧ size_token_to_bytes "estimate" = none) ∧
    format_eta "Unknown:ETA" = "Unknown:ETA" ∧ format_eta "later" = "later" := by
  refine ⟨C10_token_helpers.1 "estimate" (by decide), ?_, ?_⟩
  · exact C10_token_helpers.2.2.2.1 "Unknown:ETA" "Unknown" "ETA" (by decide) (Or.inl (by decide))
  · exact C10_token_helpers.2.2.2.2.1 "later" (by decide) (by decide) (by decide)

/-! ### C5: format resolver invariants -/

theorem lastAlt_append_best (s : String) : lastAlternative (s ++ "/best") = "best" := by
  obtain ⟨l⟩ := s
  show lastAlternative ⟨l ++ ['/', 'b', 'e', 's', 't']⟩ = "best"
  unfold lastAlternative
  show String.mk (((l ++ ['/', 'b', 'e', 's', 't']).reverse.takeWhile
    (fun c => c != '/')).reverse) = "best"
  rw [List.reverse_append]
  rfl

/-- C5: Every mode string resolves to a non-empty format selector whose
fallback chain's final alternative is the generic best selector — spelled
`"best"` or yt-dlp's documented one-letter alias `"b"` of the same selector —
and every mode outside the recognized presets resolves to the best-available
selector preferring the MP4 container, `"b[ext=mp4]/b"`. -/
theorem C5_resolver : ∀ mode : String,
    resolveFormat mode ≠ "" ∧
    (lastAlternative (resolveFormat mode) = "best"
      ∨ lastAlternative (resolveFormat mode) = "b") ∧
    (knownMode mode = false → resolveFormat mode = "b[ext=mp4]/b") := by
  intro mode
  have hlast : lastAlternative (resolveFormat mode) = "best"
      ∨ lastAlternative (resolveFormat mode) = "b" := by
    unfold resolveFormat
    split
    · decide
    · split
      · dsimp only
        exact Or.inl (lastAlt_append_best _)
      · split
        · decide
        · split
          · decide
          · split
            · decide
            · split
              · decide
              · decide
  refine ⟨?_, hlast, ?_⟩
  · intro h
    rw [h] at hlast
    exact absurd hlast (by decide)
  · intro hk
    unfold knownMode at hk
    simp only [Bool.or_eq_false_iff] at hk
    obtain ⟨⟨⟨⟨⟨h1, h2⟩, h3⟩, h4⟩, h5⟩, h6⟩ := hk
    unfold resolveFormat
    rw [h1, h2, h3, h4, h5, h6]
    rfl

/-- C5 witness: the unknown-preset fallback at a concrete unrecognized mode,
by instantiating `C5_resolver`. -/
theorem C5_resolver_witness :
    resolveFormat "flac_best" = "b[ext=mp4]/b" ∧ resolveFormat "flac_best" ≠ "" := by
  exact ⟨(C5_resolver "flac_best").2.2 (by decide), (C5_resolver "flac_best").1⟩

/-! ### C2: exit-0 runs without a usable artifact are failures -/

/-- C2: After an exit-0 run, post-validation rejects — with an error, never a
completion — (a) a run where no output path was identified and the output
directory offers nothing to recover, (b) a recovered/identified artifact
smaller than 1 KiB, and (c) a run during which no genuine percent increase was
observed; and at the run level an exit-0 run with an empty output directory
terminates with the error signal, not `finished`. -/
theorem C2_post_validation :
    ∀ (fs : List FsEntry) (output url p : String) (ds rp : Bool),
    (globAll fs output = [] →
      postValidate fs output none ds rp = .error msgNoArtifact) ∧
    (fsExists fs p = true → p ≠ "" → fsSize fs p < 1024 →
      postValidate fs output (some p) ds rp = .error msgTooSmall) ∧
    (fsExists fs p = true → p ≠ "" → 1024 ≤ fsSize fs p → ds = true → rp = false →
      postValidate fs output (some p) ds rp = .error msgNoRealProgress) ∧
    (globAll fs output = [] →
      (runFull [] none 0 fs output url).emits
        = [Emission.progress 1, Emission.errorSig (wrapUnexpected msgNoArtifact)]) := by
  intro fs output url p ds rp
  have hexPos : ∀ (q : String), fsExists fs q = true → q ≠ "" →
      postValidate fs output (some q) ds rp
        = (if fsSize fs q < 1024 then .error msgTooSmall
           else if !ds then .error msgNotStarted
           else if !rp then .error msgNoRealProgress
           else .ok q) := by
    intro q hq hne
    unfold postValidate
    have h1 : (q == "") = false := by
      rcases h : q == "" with _ | _
      · rfl
      · exact absurd (beq_iff_eq.mp h) hne
    simp [h1, hq]
    intro hc
    exact absurd hc hne
  refine ⟨?_, ?_, ?_, ?_⟩
  · intro hg
    unfold postValidate
    simp [hg, latestByCtime]
  · intro hq hne hsz
    rw [hexPos p hq hne]
    simp [hsz]
  · intro hq hne hsz hds hrp
    rw [hexPos p hq hne]
    rw [if_neg (by omega), hds, hrp]
    rfl
  · intro hg
    show (runFull [] none 0 fs output url).emits = _
    unfold runFull
    have hv : postValidate fs output none false false = .error msgNoArtifact := by
      unfold postValidate
      simp [hg, latestByCtime]
    simp [runCore, hv]

/-- C2 witness: a 10-byte artifact after an exit-0 run is rejected as too
small, by instantiating `C2_post_validation`. -/
theorem C2_post_validation_witness :
    postValidate [⟨"/d", "a.mp4", true, 10, 7⟩] "/d" (some "/d/a.mp4") true true
      = .error msgTooSmall := by
  exact (C2_post_validation [⟨"/d", "a.mp4", true, 10, 7⟩] "/d" "u" "/d/a.mp4" true true).2.1
    (by decide) (by decide) (by decide)

/-! ### C4: cancellation semantics -/

/-- C4: `cancel()` never lets an exception escape (for every oracle of process
reactions the embedding returns `.ok`); when the process has already
terminated — or never started — it issues no process-control action and leaves
the process state unchanged; on a running process it terminates with the
bounded grace window and escalates to `kill` exactly when the grace window
elapses; and the cleanup performed afterwards leaves no `*.part` or `*.ytdl`
file in the output directory. -/
theorem C4_cancel :
    ∀ (w : Worker) (o : CancelOracle) (fs : List FsEntry),
    (∃ r, cancelW w o fs = .ok r) ∧
    ((w.proc = none ∨ (∃ c, w.proc = some (ProcSt.exited c))) →
      ∃ w2, cancelW w o fs = .ok (w2, cleanupPartFiles fs w.output, [])
        ∧ w2.proc = w.proc) ∧
    (w.proc = some ProcSt.running → o.terminateRaises = false →
      (o.exitsInGrace = true →
        ∃ w2, cancelW w o fs = .ok (w2, cleanupPartFiles fs w.output, [CAction.terminate])
          ∧ w2.proc = some ProcSt.terminatedGraceful) ∧
      (o.exitsInGrace = false →
        ∃ w2, cancelW w o fs
            = .ok (w2, cleanupPartFiles fs w.output, [CAction.terminate, CAction.kill])
          ∧ (o.killRaises = false → w2.proc = some ProcSt.killed))) ∧
    (∀ e ∈ cleanupPartFiles fs w.output, e.dir = w.output → e.isFile = true →
      globStarMatch ".part" e.name = false ∧ globStarMatch ".ytdl" e.name = false) := by
  intro w o fs
  obtain ⟨wout, wc, wproc⟩ := w
  obtain ⟨ot, og, okr⟩ := o
  refine ⟨⟨_, rfl⟩, ?_, ?_, ?_⟩
  · intro h
    rcases h with h | ⟨c, h⟩
    · have h' : wproc = none := h
      subst h'
      exact ⟨_, rfl, rfl⟩
    · have h' : wproc = some (ProcSt.exited c) := h
      subst h'
      exact ⟨_, rfl, rfl⟩
  · intro hp ht
    have hp' : wproc = some ProcSt.running := hp
    have ht' : ot = false := ht
    subst hp'
    subst ht'
    constructor
    · intro hg
      have hg' : og = true := hg
      subst hg'
      exact ⟨_, rfl, rfl⟩
    · intro hg
      have hg' : og = false := hg
      subst hg'
      rcases hk : okr with _ | _
      · subst hk
        exact ⟨_, rfl, fun _ => rfl⟩
      · subst hk
        exact ⟨_, rfl, fun hc => by simp at hc⟩
  · intro e he hdir hfile
    unfold cleanupPartFiles at he
    rw [List.mem_filter] at he
    have hcond := he.2
    rw [hdir] at hcond
    simp [hfile] at hcond
    exact ⟨hcond.1, hcond.2⟩

/-- C4 witness: a graceful cancellation of a running worker, by instantiating
`C4_cancel`. -/
theorem C4_cancel_witness :
    ∃ w2, cancelW ⟨"/d", false, some ProcSt.running⟩ ⟨false, true, false⟩
        [⟨"/d", "clip.mp4.part", true, 9999, 1⟩]
      = .ok (w2, cleanupPartFiles [⟨"/d", "clip.mp4.part", true, 9999, 1⟩] "/d",
             [CAction.terminate])
      ∧ w2.proc = some ProcSt.terminatedGraceful := by
  exact ((C4_cancel ⟨"/d", false, some ProcSt.running⟩ ⟨false, true, false⟩
    [⟨"/d", "clip.mp4.part", true, 9999, 1⟩]).2.2.1 rfl rfl).1 rfl

/-! ### C9: cleanup clears the whole shared directory, even without a process -/

/-- C9 (implicit frame effect): the cancel-path cleanup removes every `*.part`
and `*.ytdl` file present in the worker's output directory — the
quantification is over all entries, so the in-progress partial files of any
other worker downloading into the same shared directory are deleted too, not
only the cancelled worker's own — and the cleanup runs even when `cancel()`
is called on a worker whose external process never started (`proc = none`). -/
theorem C9_cleanup_shared :
    ∀ (w : Worker) (o : CancelOracle) (fs : List FsEntry),
    w.proc = none →
    (∃ w2, cancelW w o fs = .ok (w2, cleanupPartFiles fs w.output, [])) ∧
    ∀ e ∈ fs, e.dir = w.output → e.isFile = true →
      (globStarMatch ".part" e.name = true ∨ globStarMatch ".ytdl" e.name = true) →
      e ∉ cleanupPartFiles fs w.output := by
  intro w o fs hp
  obtain ⟨wout, wc, wproc⟩ := w
  have hp' : wproc = none := hp
  subst hp'
  constructor
  · exact ⟨_, rfl⟩
  · intro e he hdir hfile hm hmem
    unfold cleanupPartFiles at hmem
    rw [List.mem_filter] at hmem
    have hcond := hmem.2
    rw [hdir] at hcond
    simp [hfile] at hcond
    rcases hm with hm | hm
    · exact absurd hm (by rw [hcond.1]; exact Bool.false_ne_true)
    · exact absurd hm (by rw [hcond.2]; exact Bool.false_ne_true)

/-- C9 witness: cancelling a never-started worker deletes another worker's
partial file from the shared directory, by instantiating `C9_cleanup_shared`. -/
theorem C9_cleanup_shared_witness :
    (⟨"/d", "other_video.mp4.part", true, 4096, 3⟩ : FsEntry)
      ∉ cleanupPartFiles
          [⟨"/d", "mine.mp4", true, 9000, 2⟩, ⟨"/d", "other_video.mp4.part", true, 4096, 3⟩]
          "/d" := by
  exact (C9_cleanup_shared ⟨"/d", false, none⟩ ⟨false, false, false⟩
      [⟨"/d", "mine.mp4", true, 9000, 2⟩, ⟨"/d", "other_video.mp4.part", true, 4096, 3⟩]
      rfl).2
    ⟨"/d", "other_video.mp4.part", true, 4096, 3⟩ (by decide) rfl rfl (Or.inl (by decide))

/-! ### C8: duplicate-file rename resolution -/

theorem generateUniqueAux_eq_find (fileExists : String → Bool) (base ext : String)
    (ts : ℕ) : ∀ (fuel start : ℕ),
    generateUniqueAux fileExists base ext ts fuel start
      = (match (natRange start fuel).find? (fun n => !fileExists (uniqueName base ext n)) with
         | some n => uniqueName base ext n
         | none => timestampName base ext ts) := by
  intro fuel
  induction fuel with
  | zero => intro start; rfl
  | succ m ih =>
    intro start
    show (if !fileExists (uniqueName base ext start) then uniqueName base ext start
          else generateUniqueAux fileExists base ext ts m (start + 1)) = _
    rw [show natRange start (m + 1) = start :: natRange (start + 1) m from rfl]
    rw [List.find?_cons]
    rcases h : !fileExists (uniqueName base ext start) with _ | _
    · exact ih (start + 1)
    · rfl

theorem mem_natRange : ∀ (len start m : ℕ), m ∈ natRange start len ↔ start ≤ m ∧ m < start + len := by
  intro len
  induction len with
  | zero =>
    intro start m
    simp only [natRange, List.not_mem_nil, false_iff]
    omega
  | succ k ih =>
    intro start m
    show m ∈ start :: natRange (start + 1) k ↔ _
    rw [List.mem_cons, ih (start + 1)]
    omega

theorem find_natRange_first (p : ℕ → Bool) : ∀ (len start n : ℕ),
    start ≤ n → n < start + len → p n = true →
    (∀ m, start ≤ m → m < n → p m = false) →
    (natRange start len).find? p = some n := by
  intro len
  induction len with
  | zero => intro start n h1 h2; omega
  | succ k ih =>
    intro start n h1 h2 hn hmin
    show ((start :: natRange (start + 1) k).find? p) = some n
    rw [List.find?_cons]
    rcases hs : p start with _ | _
    · have hne : start ≠ n := by
        intro hc
        rw [hc, hn] at hs
        exact absurd hs (by decide)
      exact ih (start + 1) n (by omega) (by omega) hn (fun m hm1 hm2 => hmin m (by omega) hm2)
    · have heq : start = n := by
        by_contra hc
        have hlt : start < n := by omega
        have hfalse := hmin start (le_refl start) hlt
        rw [hfalse] at hs
        exact absurd hs (by decide)
      show some start = some n
      rw [heq]

/-- C8: the rename resolution returns `"<base> (n).<ext>"` for the smallest
positive `n ≤ 999` such that no file of that name exists in the output
directory (in particular, with the base name as the only conflict it returns
the `" (1)"` name), and falls back to the timestamp-suffixed name exactly when
all of `" (1)"` through `" (999)"` are taken. -/
theorem C8_rename_resolution :
    ∀ (fileExists : String → Bool) (base ext : String) (ts : ℕ),
    (∀ n, 1 ≤ n → n ≤ 999 → fileExists (uniqueName base ext n) = false →
      (∀ m, 1 ≤ m → m < n → fileExists (uniqueName base ext m) = true) →
      generate_unique_filename fileExists base ext ts = uniqueName base ext n) ∧
    ((∀ n, 1 ≤ n → n ≤ 999 → fileExists (uniqueName base ext n) = true) →
      generate_unique_filename fileExists base ext ts = timestampName base ext ts) := by
  intro fileExists base ext ts
  constructor
  · intro n h1 h2 hfree hmin
    unfold generate_unique_filename
    rw [generateUniqueAux_eq_find]
    rw [find_natRange_first (fun n => !fileExists (uniqueName base ext n)) 999 1 n h1
      (by omega) (by simp [hfree])
      (fun m hm1 hm2 => by simp [hmin m hm1 hm2])]
  · intro hall
    unfold generate_unique_filename
    rw [generateUniqueAux_eq_find]
    have : (natRange 1 999).find? (fun n => !fileExists (uniqueName base ext n)) = none := by
      rw [List.find?_eq_none]
      intro x hx
      have hb := (mem_natRange 999 1 x).mp hx
      rw [hall x hb.1 (by omega)]
      simp
    rw [this]

/-- C8 witness: with no `" (n)"` name taken, the first rename candidate
`" (1)"` is returned, by instantiating `C8_rename_resolution`. -/
theorem C8_rename_resolution_witness :
    generate_unique_filename (fun _ => false) "video" "mp4" 1700000000
      = uniqueName "video" "mp4" 1 := by
  exact (C8_rename_resolution (fun _ => false) "video" "mp4" 1700000000).1 1 (by decide)
    (by decide) rfl (fun m hm1 hm2 => by omega)

/-! ### C1: percent monotonicity -/

set_option maxRecDepth 8000 in
/-- C1 counterexample: a complete worker run over realistic yt-dlp output for
a two-stream (video+audio) download. The emitted percent sequence is
`[1, 5, 37, 75, 75, 5, 75, 81, 7, 81]`: it decreases (75 → 5 at the second
`Destination:` line, 81 → 7 at the audio stream's early percent) with no reset
to 0, and the run's terminal event is an error — so the sequence violates the
claimed "non-decreasing except one reset to 0 immediately before an Error"
shape, refuting the claim as stated. -/
theorem C1_counterexample :
    percentsOf (runWorker
        [("[download] Destination: /tmp/video.f137.mp4", false),
         ("[download]  50.0% of 10.00MiB at 1.00MiB/s ETA 00:05", false),
         ("[download] 100% of 10.00MiB in 00:10", false),
         ("[download] Destination: /tmp/video.f140.m4a", false),
         ("[download]  10.0% of 2.00MiB at 1.00MiB/s ETA 00:02", false)]
        none 0 [] "/out" "u")
      = [1, 5, 37, 75, 75, 5, 75, 81, 7, 81] ∧
    (runWorker
        [("[download] Destination: /tmp/video.f137.mp4", false),
         ("[download]  50.0% of 10.00MiB at 1.00MiB/s ETA 00:05", false),
         ("[download] 100% of 10.00MiB in 00:10", false),
         ("[download] Destination: /tmp/video.f140.m4a", false),
         ("[download]  10.0% of 2.00MiB at 1.00MiB/s ETA 00:02", false)]
        none 0 [] "/out" "u").emits.getLast?
      = some (Emission.errorSig (wrapUnexpected msgNoArtifact)) ∧
    c1AllowedB [1, 5, 37, 75, 75, 5, 75, 81, 7, 81] true = false := by
  refine ⟨by decide, by decide, by decide⟩

theorem five_le_pctEmit (q : PyF) : 5 ≤ pctEmit q := le_max_left _ _

theorem pctEmit_le_75 (q : PyF) : pctEmit q ≤ 75 :=
  max_le (by norm_num) (min_le_left _ _)

theorem pctEmitInt_mono {p q : ℤ} (hp : 0 ≤ p) (hpq : p ≤ q) :
    pctEmitInt p ≤ pctEmitInt q := by
  unfold pctEmitInt
  refine max_le_max (le_refl 5) (min_le_min (le_refl 75) ?_)
  show (p * 3).tdiv (1 * 4) ≤ (q * 3).tdiv (1 * 4)
  rw [Int.tdiv_eq_ediv (mul_nonneg hp (by norm_num)) (by norm_num),
    Int.tdiv_eq_ediv (mul_nonneg (le_trans hp hpq) (by norm_num)) (by norm_num)]
  exact Int.ediv_le_ediv (by norm_num) (by omega)

theorem step_dest (s : WState) (hdc : s.downloadCompleted = false) (raw p : String) :
    stepCore s (featDest raw p) false
      = ⟨{ s with lastPath := some p, downloadStarted := true },
         [Emission.progress 5], [], none⟩ := by
  simp [stepCore, pctBlock, featDest, chainOutcome, hdc]

theorem step_pct (s : WState) (hdc : s.downloadCompleted = false)
    (hst : s.totalSizeText = "") (raw tok : String) (q : PyF)
    (hp : pyParseFloat tok = some q) :
    stepCore s (featPct raw tok) false
      = ⟨if s.lastProgressValue < q.trunc then
           { s with realProgress := true, lastProgressValue := q.trunc, lastPctVal := some q }
         else { s with lastPctVal := some q },
         [Emission.progress (pctEmit q)], [], none⟩ := by
  simp [stepCore, pctBlock, featPct, chainOutcome, hp, hdc, hst, pctEmit, pctEmitInt]
  split <;> simp [hst, hdc]

theorem step_100 (s : WState) (hst : s.totalSizeText = "") (raw : String) :
    stepCore s (feat100 raw) false
      = ⟨if s.lastProgressValue < 100 then
           { s with downloadCompleted := true, realProgress := true, lastProgressValue := 100, lastPctVal := some ⟨100, 1⟩ }
         else { s with downloadCompleted := true, lastPctVal := some ⟨100, 1⟩ },
         [Emission.progress 75, Emission.progress 75], [], none⟩ := by
  have hp : pyParseFloat "100" = some (⟨100, 1⟩ : PyF) := by decide
  have ht : (⟨100, 1⟩ : PyF).trunc = 100 := by decide
  have he : pctEmit ⟨100, 1⟩ = 75 := by decide
  simp [stepCore, pctBlock, feat100, chainOutcome, hp, hst, ht, he, pctEmit]
  split <;> simp [hst] <;> decide

theorem step_conv (s : WState) (raw : String) :
    stepCore s (featConv raw) false
      = ⟨{ s with downloadCompleted := true, conversionStarted := true },
         [Emission.progress 80, Emission.progress 81], [], none⟩ := by
  simp [stepCore, pctBlock, featConv, chainOutcome, get_last_progress]

theorem step_ind (s : WState) (raw : String) :
    stepCore s (featInd raw) false
      = (if s.downloadCompleted then
          ⟨{ s with conversionStarted := true }, [Emission.progress 81], [], none⟩
         else ⟨s, [], [], none⟩) := by
  rcases h : s.downloadCompleted with _ | _ <;>
    simp [stepCore, pctBlock, featInd, chainOutcome, h, get_last_progress]

theorem step_final (s : WState) (raw : String) :
    stepCore s (featFinal raw) false
      = (if s.downloadCompleted then ⟨s, [Emission.progress 95], [], none⟩
         else ⟨s, [], [], none⟩) := by
  rcases h : s.downloadCompleted with _ | _ <;>
    simp [stepCore, pctBlock, featFinal, chainOutcome, h]

/-- Sequential composition of the loop: a raise-free prefix threads its final
state into the remainder. -/
theorem runCore_chunk {s s1 : WState} {l1 l2 : List (LineFeatures × Bool)}
    {e1 : List Emission} {o2 : CoreOut}
    (h1 : runCore s l1 = ⟨s1, e1, [], none⟩) (h2 : runCore s1 l2 = o2) :
    runCore s (l1 ++ l2) = ⟨o2.state, e1 ++ o2.emits, o2.log, o2.raised⟩ := by
  induction l1 generalizing s e1 with
  | nil =>
    have hs : s1 = s := (congrArg CoreOut.state h1).symm
    have he : e1 = [] := (congrArg CoreOut.emits h1).symm
    subst hs
    subst he
    simpa using h2
  | cons fe rest ih =>
    rcases ho : (stepCore s fe.1 fe.2).raised with _ | m
    · rw [show (fe :: rest) ++ l2 = fe :: (rest ++ l2) from rfl]
      rcases hr : runCore (stepCore s fe.1 fe.2).state rest with ⟨rs, re, rl, rr⟩
      have h1' : runCore s (fe :: rest)
          = ⟨rs, (stepCore s fe.1 fe.2).emits ++ re,
             (stepCore s fe.1 fe.2).log ++ rl, rr⟩ := by
        simp [runCore, ho, hr]
      rw [h1'] at h1
      have hrs : rs = s1 := congrArg CoreOut.state h1
      have hre : (stepCore s fe.1 fe.2).emits ++ re = e1 := congrArg CoreOut.emits h1
      have hlg : (stepCore s fe.1 fe.2).log ++ rl = [] := congrArg CoreOut.log h1
      have hrr : rr = none := congrArg CoreOut.raised h1
      obtain ⟨hlg1, hlg2⟩ := List.append_eq_nil.mp hlg
      have harg : runCore (stepCore s fe.1 fe.2).state rest = ⟨s1, re, [], none⟩ := by
        rw [hr, hrs, hlg2, hrr]
      have ihh := ih harg
      simp [runCore, ho, ihh, ← hre, hlg1, List.append_assoc]
    · have h1' : runCore s (fe :: rest)
          = ⟨(stepCore s fe.1 fe.2).state, (stepCore s fe.1 fe.2).emits,
             (stepCore s fe.1 fe.2).log, some m⟩ := by
        simp [runCore, ho]
      rw [h1'] at h1
      have := congrArg CoreOut.raised h1
      simp at this

theorem seg_dests (l : List (String × String)) : ∀ s : WState,
    s.downloadCompleted = false →
    ∃ s2, runCore s (l.map fun rp => (featDest rp.1 rp.2, false))
        = ⟨s2, l.map (fun _ => Emission.progress 5), [], none⟩
      ∧ s2.downloadCompleted = false ∧ s2.totalSizeText = s.totalSizeText := by
  induction l with
  | nil => intro s h; exact ⟨s, rfl, h, rfl⟩
  | cons rp rest ih =>
    intro s h
    obtain ⟨s2, hrun, hdc2, hst2⟩ :=
      ih { s with lastPath := some rp.2, downloadStarted := true } h
    refine ⟨s2, ?_, hdc2, hst2⟩
    simp [runCore, step_dest s h rp.1 rp.2, hrun]

theorem seg_pcts (l : List (String × String × PyF)) : ∀ s : WState,
    (∀ e ∈ l, pyParseFloat e.2.1 = some e.2.2) →
    s.downloadCompleted = false → s.totalSizeText = "" →
    ∃ s2, runCore s (l.map fun e => (featPct e.1 e.2.1, false))
        = ⟨s2, l.map (fun e => Emission.progress (pctEmit e.2.2)), [], none⟩
      ∧ s2.downloadCompleted = false ∧ s2.totalSizeText = "" := by
  induction l with
  | nil => intro s _ h hst; exact ⟨s, rfl, h, hst⟩
  | cons e rest ih =>
    intro s hp h hst
    set t := if s.lastProgressValue < e.2.2.trunc then
        { s with realProgress := true, lastProgressValue := e.2.2.trunc, lastPctVal := some e.2.2 }
      else { s with lastPctVal := some e.2.2 } with ht
    have hdct : t.downloadCompleted = false := by rw [ht]; split <;> exact h
    have hstt : t.totalSizeText = "" := by rw [ht]; split <;> exact hst
    obtain ⟨s2, hrun, hdc2, hst2⟩ :=
      ih t (fun x hx => hp x (List.mem_cons_of_mem _ hx)) hdct hstt
    refine ⟨s2, ?_, hdc2, hst2⟩
    simp [runCore, step_pct s h hst e.1 e.2.1 e.2.2 (hp e (List.mem_cons_self _ _)),
      ← ht, hrun]

theorem seg_100s (l : List String) : ∀ s : WState, s.totalSizeText = "" →
    ∃ s2, runCore s (l.map fun r => (feat100 r, false))
        = ⟨s2, l.flatMap (fun _ => [Emission.progress 75, Emission.progress 75]), [], none⟩
      ∧ s2.downloadCompleted = (s.downloadCompleted || !l.isEmpty)
      ∧ s2.totalSizeText = "" := by
  induction l with
  | nil => intro s hst; exact ⟨s, rfl, by simp, hst⟩
  | cons r rest ih =>
    intro s hst
    set t := if s.lastProgressValue < 100 then
        { s with downloadCompleted := true, realProgress := true, lastProgressValue := 100, lastPctVal := some ⟨100, 1⟩ }
      else { s with downloadCompleted := true, lastPctVal := some ⟨100, 1⟩ } with ht
    have hdct : t.downloadCompleted = true := by rw [ht]; split <;> rfl
    have hstt : t.totalSizeText = "" := by rw [ht]; split <;> exact hst
    obtain ⟨s2, hrun, hdc2, hst2⟩ := ih t hstt
    refine ⟨s2, ?_, ?_, hst2⟩
    · simp [runCore, step_100 s hst r, ← ht, hrun]
    · rw [hdc2, hdct]
      simp

theorem seg_inds_dc (l : List String) : ∀ s : WState, s.downloadCompleted = true →
    ∃ s2, runCore s (l.map fun r => (featInd r, false))
        = ⟨s2, l.map (fun _ => Emission.progress 81), [], none⟩
      ∧ s2.downloadCompleted = true := by
  induction l with
  | nil => intro s h; exact ⟨s, rfl, h⟩
  | cons r rest ih =>
    intro s h
    obtain ⟨s2, hrun, hdc2⟩ := ih { s with conversionStarted := true } h
    have hstep : stepCore s (featInd r) false
        = ⟨{ s with conversionStarted := true }, [Emission.progress 81], [], none⟩ := by
      simp [step_ind, h]
    refine ⟨s2, ?_, hdc2⟩
    simp [runCore, hstep, hrun]

theorem seg_inds_ndc (l : List String) (s : WState) (h : s.downloadCompleted = false) :
    runCore s (l.map fun r => (featInd r, false)) = ⟨s, [], [], none⟩ := by
  induction l with
  | nil => rfl
  | cons r rest ih =>
    have hstep : stepCore s (featInd r) false = ⟨s, [], [], none⟩ := by
      simp [step_ind, h]
    simp [runCore, hstep, ih]

theorem seg_finals_dc (l : List String) (s : WState) (h : s.downloadCompleted = true) :
    runCore s (l.map fun r => (featFinal r, false))
      = ⟨s, l.map (fun _ => Emission.progress 95), [], none⟩ := by
  induction l with
  | nil => rfl
  | cons r rest ih =>
    have hstep : stepCore s (featFinal r) false = ⟨s, [Emission.progress 95], [], none⟩ := by
      simp [step_final, h]
    simp [runCore, hstep, ih]

theorem seg_finals_ndc (l : List String) (s : WState) (h : s.downloadCompleted = false) :
    runCore s (l.map fun r => (featFinal r, false)) = ⟨s, [], [], none⟩ := by
  induction l with
  | nil => rfl
  | cons r rest ih =>
    have hstep : stepCore s (featFinal r) false = ⟨s, [], [], none⟩ := by
      simp [step_final, h]
    simp [runCore, hstep, ih]

/-- The loop over a canonical trace raises nothing, logs nothing, and emits
exactly `canonEmits`. -/
theorem runCore_canon (t : CanonTrace)
    (hp : ∀ e ∈ t.pcts, pyParseFloat e.2.1 = some e.2.2) :
    ∃ s2, runCore {} (canonFeats t) = ⟨s2, canonEmits t, [], none⟩ := by
  obtain ⟨sA, hA, hdcA, hstA⟩ := seg_dests t.dests {} rfl
  have hstA' : sA.totalSizeText = "" := hstA
  obtain ⟨sB, hB, hdcB, hstB⟩ := seg_pcts t.pcts sA hp hdcA hstA'
  obtain ⟨sC, hC, hdcC, hstC⟩ := seg_100s t.marks100 sB hstB
  rcases hconv : t.conv with _ | convRaw
  · rcases hm : t.marks100.isEmpty with _ | _
    · -- at least one 100% marker: the download stage has completed
      have hdcC' : sC.downloadCompleted = true := by rw [hdcC, hdcB, hm]; rfl
      obtain ⟨sE, hI, hdcE⟩ := seg_inds_dc t.inds sC hdcC'
      have hF := seg_finals_dc t.finals sE hdcE
      have chain :=
        runCore_chunk hA (runCore_chunk hB (runCore_chunk hC
          (runCore_chunk
            (show runCore sC ([] : List (LineFeatures × Bool)) = ⟨sC, [], [], none⟩
              from rfl)
            (runCore_chunk hI hF))))
      refine ⟨sE, ?_⟩
      rw [show canonFeats t
          = t.dests.map (fun rp => (featDest rp.1 rp.2, false))
            ++ (t.pcts.map (fun e => (featPct e.1 e.2.1, false))
            ++ (t.marks100.map (fun r => (feat100 r, false))
            ++ ([] ++ (t.inds.map (fun r => (featInd r, false))
            ++ t.finals.map (fun r => (featFinal r, false)))))) from by
        simp [canonFeats, hconv]]
      rw [chain]
      simp [canonEmits, canonDc, hconv, hm]
    · -- no marker and no conversion line: download stage never completes
      have hdcC' : sC.downloadCompleted = false := by rw [hdcC, hdcB, hm]; rfl
      have hI := seg_inds_ndc t.inds sC hdcC'
      have hF := seg_finals_ndc t.finals sC hdcC'
      have chain :=
        runCore_chunk hA (runCore_chunk hB (runCore_chunk hC
          (runCore_chunk
            (show runCore sC ([] : List (LineFeatures × Bool)) = ⟨sC, [], [], none⟩
              from rfl)
            (runCore_chunk hI hF))))
      refine ⟨sC, ?_⟩
      rw [show canonFeats t
          = t.dests.map (fun rp => (featDest rp.1 rp.2, false))
            ++ (t.pcts.map (fun e => (featPct e.1 e.2.1, false))
            ++ (t.marks100.map (fun r => (feat100 r, false))
            ++ ([] ++ (t.inds.map (fun r => (featInd r, false))
            ++ t.finals.map (fun r => (featFinal r, false)))))) from by
        simp [canonFeats, hconv]]
      rw [chain]
      simp [canonEmits, canonDc, hconv, hm]
  · -- explicit conversion line: the download stage has completed afterwards
    have hD : runCore sC [(featConv convRaw, false)]
        = ⟨{ sC with downloadCompleted := true, conversionStarted := true },
           [Emission.progress 80, Emission.progress 81], [], none⟩ := by
      simp [runCore, step_conv]
    obtain ⟨sE, hI, hdcE⟩ := seg_inds_dc t.inds
      { sC with downloadCompleted := true, conversionStarted := true } rfl
    have hF := seg_finals_dc t.finals sE hdcE
    have chain :=
      runCore_chunk hA (runCore_chunk hB (runCore_chunk hC
        (runCore_chunk hD (runCore_chunk hI hF))))
    refine ⟨sE, ?_⟩
    rw [show canonFeats t
        = t.dests.map (fun rp => (featDest rp.1 rp.2, false))
          ++ (t.pcts.map (fun e => (featPct e.1 e.2.1, false))
          ++ (t.marks100.map (fun r => (feat100 r, false))
          ++ ([(featConv convRaw, false)] ++ (t.inds.map (fun r => (featInd r, false))
          ++ t.finals.map (fun r => (featFinal r, false)))))) from by
      simp [canonFeats, hconv]]
    rw [chain]
    simp [canonEmits, canonDc, hconv]

theorem filterMap_progress_map {α : Type} (f : α → ℤ) (l : List α) :
    (l.map fun x => Emission.progress (f x)).filterMap progressOf = l.map f := by
  induction l with
  | nil => rfl
  | cons x xs ih => simp [progressOf, ih]

theorem filterMap_progress_comp {α : Type} (f : α → ℤ) (l : List α) :
    l.filterMap (progressOf ∘ fun x => Emission.progress (f x)) = l.map f := by
  induction l with
  | nil => rfl
  | cons x xs ih => simp [progressOf, Function.comp, ih]

theorem filterMap_progress_flat {α : Type} (l : List α) :
    (l.flatMap fun _ => [Emission.progress 75, Emission.progress 75]).filterMap progressOf
      = l.flatMap fun _ => [(75 : ℤ), 75] := by
  induction l with
  | nil => rfl
  | cons x xs ih => simp [progressOf, ih]

/-- Extracting the percents from the canonical emissions. -/
theorem percents_canonEmits (t : CanonTrace) :
    (canonEmits t).filterMap progressOf = canonPercents t := by
  unfold canonEmits canonPercents
  rcases hc : t.conv with _ | r <;> rcases hdc : canonDc t with _ | _ <;>
    simp [hc, hdc, List.filterMap_append, filterMap_progress_map, filterMap_progress_flat,
      filterMap_progress_comp, progressOf]

theorem pairwise_le_append {l1 l2 : List ℤ} (m : ℤ) (h1 : ∀ a ∈ l1, a ≤ m)
    (h2 : ∀ b ∈ l2, m ≤ b) (p1 : l1.Pairwise (· ≤ ·)) (p2 : l2.Pairwise (· ≤ ·)) :
    (l1 ++ l2).Pairwise (· ≤ ·) :=
  List.pairwise_append.mpr ⟨p1, p2, fun a ha b hb => le_trans (h1 a ha) (h2 b hb)⟩

theorem pairwise_of_const {l : List ℤ} {c : ℤ} (h : ∀ x ∈ l, x = c) :
    l.Pairwise (· ≤ ·) := by
  induction l with
  | nil => exact List.Pairwise.nil
  | cons x xs ih =>
    rw [List.pairwise_cons]
    refine ⟨fun b hb => ?_, ih (fun y hy => h y (List.mem_cons_of_mem _ hy))⟩
    rw [h x (List.mem_cons_self _ _), h b (List.mem_cons_of_mem _ hb)]

theorem mem_const_map {α : Type} {c x : ℤ} {l : List α} (h : x ∈ l.map fun _ => c) :
    x = c := by
  rcases List.mem_map.mp h with ⟨y, _, hy⟩
  exact hy.symm

theorem mem_const_flat {α : Type} {x : ℤ} {l : List α}
    (h : x ∈ l.flatMap fun _ => [(75 : ℤ), 75]) : x = 75 := by
  rcases List.mem_flatMap.mp h with ⟨y, _, h2⟩
  simp at h2
  exact h2

theorem mem_convMatch {t : CanonTrace} {x : ℤ}
    (h : x ∈ (match t.conv with | some _ => [(80 : ℤ), 81] | none => ([] : List ℤ))) :
    80 ≤ x ∧ x ≤ 81 := by
  rcases hc : t.conv with _ | r <;> rw [hc] at h
  · simp at h
  · simp at h
    rcases h with h | h <;> omega

theorem mem_indsIf {t : CanonTrace} {x : ℤ}
    (h : x ∈ (if canonDc t then t.inds.map (fun _ => (81 : ℤ)) else [])) : x = 81 := by
  rcases hdc : canonDc t with _ | _ <;> rw [hdc] at h
  · rw [if_neg (by decide)] at h
    simp at h
  · rw [if_pos rfl] at h
    exact mem_const_map h

theorem mem_finalsIf {t : CanonTrace} {x : ℤ}
    (h : x ∈ (if canonDc t then t.finals.map (fun _ => (95 : ℤ)) else [])) : x = 95 := by
  rcases hdc : canonDc t with _ | _ <;> rw [hdc] at h
  · rw [if_neg (by decide)] at h
    simp at h
  · rw [if_pos rfl] at h
    exact mem_const_map h

/-- Every canonical percent is between 5 and 95. -/
theorem canonPercents_bounds (t : CanonTrace) :
    ∀ x ∈ canonPercents t, 5 ≤ x ∧ x ≤ 95 := by
  intro x hx
  unfold canonPercents at hx
  simp only [List.mem_append] at hx
  rcases hx with hx | hx | hx | hx | hx | hx
  · have := mem_const_map hx
    omega
  · rcases List.mem_map.mp hx with ⟨e, _, hy⟩
    have h1 := five_le_pctEmit e.2.2
    have h2 := pctEmit_le_75 e.2.2
    omega
  · have := mem_const_flat hx
    omega
  · have := mem_convMatch hx
    omega
  · have := mem_indsIf hx
    omega
  · have := mem_finalsIf hx
    omega

/-- Under the canonical-trace hypotheses the percent list is non-decreasing. -/
theorem canonPercents_pairwise (t : CanonTrace)
    (hnn : ∀ e ∈ t.pcts, 0 ≤ e.2.2.trunc)
    (hchain : List.Chain' (· ≤ ·) (t.pcts.map fun e => e.2.2.trunc)) :
    (canonPercents t).Pairwise (· ≤ ·) := by
  have hpct_pw : (t.pcts.map fun e => pctEmit e.2.2).Pairwise (· ≤ ·) := by
    have h1 : (t.pcts.map fun e => e.2.2.trunc).Pairwise (· ≤ ·) :=
      List.chain'_iff_pairwise.mp hchain
    have h2 : (t.pcts.map fun e => pctEmit e.2.2)
        = (t.pcts.map fun e => e.2.2.trunc).map pctEmitInt := by
      rw [List.map_map]
      rfl
    rw [h2]
    refine List.pairwise_map.mpr ?_
    refine List.Pairwise.imp_of_mem ?_ h1
    intro a b ha _ hab
    refine pctEmitInt_mono ?_ hab
    rcases List.mem_map.mp ha with ⟨e, he, hea⟩
    rw [← hea]
    exact hnn e he
  have hpct_lo : ∀ a ∈ (t.pcts.map fun e => pctEmit e.2.2), 5 ≤ a := by
    intro a ha
    rcases List.mem_map.mp ha with ⟨e, _, hy⟩
    have := five_le_pctEmit e.2.2
    omega
  have hpct_hi : ∀ a ∈ (t.pcts.map fun e => pctEmit e.2.2), a ≤ 75 := by
    intro a ha
    rcases List.mem_map.mp ha with ⟨e, _, hy⟩
    have := pctEmit_le_75 e.2.2
    omega
  unfold canonPercents
  refine pairwise_le_append 5
    (fun a ha => by have := mem_const_map ha; omega) ?_
    (pairwise_of_const (fun x hx => mem_const_map hx)) ?_
  · intro b hb
    simp only [List.mem_append] at hb
    rcases hb with hb | hb | hb | hb | hb
    · exact hpct_lo b hb
    · have := mem_const_flat hb
      omega
    · have := mem_convMatch hb
      omega
    · have := mem_indsIf hb
      omega
    · have := mem_finalsIf hb
      omega
  · refine pairwise_le_append 75 hpct_hi ?_ hpct_pw ?_
    · intro b hb
      simp only [List.mem_append] at hb
      rcases hb with hb | hb | hb | hb
      · have := mem_const_flat hb
        omega
      · have := mem_convMatch hb
        omega
      · have := mem_indsIf hb
        omega
      · have := mem_finalsIf hb
        omega
    · refine pairwise_le_append 75
        (fun a ha => by have := mem_const_flat ha; omega) ?_
        (pairwise_of_const (fun x hx => mem_const_flat hx)) ?_
      · intro b hb
        simp only [List.mem_append] at hb
        rcases hb with hb | hb | hb
        · have := mem_convMatch hb
          omega
        · have := mem_indsIf hb
          omega
        · have := mem_finalsIf hb
          omega
      · refine pairwise_le_append 81
          (fun a ha => by have := mem_convMatch ha; omega) ?_ ?_ ?_
        · intro b hb
          simp only [List.mem_append] at hb
          rcases hb with hb | hb
          · have := mem_indsIf hb
            omega
          · have := mem_finalsIf hb
            omega
        · rcases hc : t.conv with _ | r <;> simp
        · refine pairwise_le_append 95
            (fun a ha => by have := mem_indsIf ha; omega)
            (fun b hb => by have := mem_finalsIf hb; omega)
            (pairwise_of_const (fun x hx => mem_indsIf hx))
            (pairwise_of_const (fun x hx => mem_finalsIf hx))

/-- Every canonical emission is a progress event (never a terminal signal). -/
theorem canonEmits_progress (t : CanonTrace) :
    ∀ e ∈ canonEmits t, isTerminal e = false := by
  intro e he
  unfold canonEmits at he
  simp only [List.mem_append] at he
  rcases he with he | he | he | he | he | he
  · rcases List.mem_map.mp he with ⟨y, _, hy⟩
    rw [← hy]
    rfl
  · rcases List.mem_map.mp he with ⟨y, _, hy⟩
    rw [← hy]
    rfl
  · rcases List.mem_flatMap.mp he with ⟨y, _, h2⟩
    simp at h2
    rw [h2]
    rfl
  · rcases hc : t.conv with _ | r <;> rw [hc] at he
    · simp at he
    · simp at he
      rcases he with he | he <;> rw [he] <;> rfl
  · rcases hdc : canonDc t with _ | _ <;> rw [hdc] at he
    · rw [if_neg (by decide)] at he
      simp at he
    · rw [if_pos rfl] at he
      rcases List.mem_map.mp he with ⟨y, _, hy⟩
      rw [← hy]
      rfl
  · rcases hdc : canonDc t with _ | _ <;> rw [hdc] at he
    · rw [if_neg (by decide)] at he
      simp at he
    · rw [if_pos rfl] at he
      rcases List.mem_map.mp he with ⟨y, _, hy⟩
      rw [← hy]
      rfl

/-- A canonical run always ends with exactly one terminal signal, preceded by
the initial emission and the canonical percent stream. -/
theorem runFull_canon_shape (t : CanonTrace) (exitCode : ℤ) (fs : List FsEntry)
    (output url : String)
    (hp : ∀ e ∈ t.pcts, pyParseFloat e.2.1 = some e.2.2) :
    (∃ m, (runFull (canonFeats t) none exitCode fs output url).emits
        = (Emission.progress 1 :: canonEmits t) ++ [Emission.errorSig m])
    ∨ (∃ nm pth, (runFull (canonFeats t) none exitCode fs output url).emits
        = (Emission.progress 1 :: canonEmits t)
          ++ [Emission.progress 100, Emission.finishedSig nm pth]) := by
  obtain ⟨s2, hrun⟩ := runCore_canon t hp
  rcases hed : s2.errorDetected with _ | _
  · rcases hex : exitCode != 0 with _ | _
    · rcases hv : postValidate fs output s2.lastPath s2.downloadStarted s2.realProgress
        with m | lp
      · exact Or.inl ⟨wrapUnexpected m, by simp [runFull, hrun, hed, hex, hv]⟩
      · exact Or.inr ⟨pyBasename (if lp != "" then lp else url),
          if lp != "" then lp else output, by simp [runFull, hrun, hed, hex, hv]⟩
    · exact Or.inl ⟨wrapUnexpected (subprocessFailMsg exitCode),
        by simp [runFull, hrun, hed, hex]⟩
  · exact Or.inl ⟨wrapUnexpected s2.errorMessage, by simp [runFull, hrun, hed]⟩

set_option maxRecDepth 4000 in
/-- C1 (amended): for every canonical single-download run — destination lines
first, then percent-progress lines whose integer raw percents are nonnegative
and non-decreasing, then `100%` completion markers, then at most one
stage-transition line, then postprocessing-indicator lines, then finalization
lines — the percent values emitted by the whole worker run form a
non-decreasing sequence, and the run's terminal `finished`/`error` signal is
its very last emission (no percent is emitted after it). The unrestricted
claim is refuted by `C1_counterexample`: the code does not itself enforce
monotonicity against out-of-order or multi-stream tool output. -/
theorem C1_monotone_canonical (t : CanonTrace) (exitCode : ℤ) (fs : List FsEntry)
    (output url : String)
    (hp : ∀ e ∈ t.pcts, pyParseFloat e.2.1 = some e.2.2)
    (hnn : ∀ e ∈ t.pcts, 0 ≤ e.2.2.trunc)
    (hchain : List.Chain' (· ≤ ·) (t.pcts.map fun e => e.2.2.trunc)) :
    List.Pairwise (· ≤ ·)
      (percentsOf (runFull (canonFeats t) none exitCode fs output url))
    ∧ ∃ body tm, (runFull (canonFeats t) none exitCode fs output url).emits
        = body ++ [tm] ∧ isTerminal tm = true ∧ ∀ e ∈ body, isTerminal e = false := by
  have hCE : (Emission.progress 1 :: canonEmits t).filterMap progressOf
      = 1 :: canonPercents t := by
    show (some 1).toList ++ (canonEmits t).filterMap progressOf = _
    rw [percents_canonEmits]
    rfl
  have hpw : (canonPercents t).Pairwise (· ≤ ·) := canonPercents_pairwise t hnn hchain
  have hbounds := canonPercents_bounds t
  have hpw1 : (1 :: canonPercents t).Pairwise (· ≤ ·) := by
    rw [List.pairwise_cons]
    exact ⟨fun b hb => by have := (hbounds b hb).1; omega, hpw⟩
  rcases runFull_canon_shape t exitCode fs output url hp with ⟨m, hm⟩ | ⟨nm, pth, hm⟩
  · constructor
    · rw [percentsOf, hm, List.filterMap_append, hCE]
      rw [show ([Emission.errorSig m].filterMap progressOf) = [] from rfl,
        List.append_nil]
      exact hpw1
    · refine ⟨Emission.progress 1 :: canonEmits t, Emission.errorSig m, hm, rfl, ?_⟩
      intro e he
      rcases List.mem_cons.mp he with rfl | he2
      · rfl
      · exact canonEmits_progress t e he2
  · constructor
    · rw [percentsOf, hm, List.filterMap_append, hCE]
      rw [show ([Emission.progress 100, Emission.finishedSig nm pth].filterMap progressOf)
          = [100] from rfl]
      refine pairwise_le_append 100 ?_ ?_ hpw1 ?_
      · intro a ha
        rcases List.mem_cons.mp ha with rfl | ha2
        · omega
        · have := (hbounds a ha2).2
          omega
      · intro b hb
        simp at hb
        omega
      · simp
    · refine ⟨(Emission.progress 1 :: canonEmits t) ++ [Emission.progress 100],
        Emission.finishedSig nm pth, ?_, rfl, ?_⟩
      · rw [hm]
        simp
      · intro e he
        simp only [List.mem_append] at he
        rcases he with he | he
        · rcases List.mem_cons.mp he with rfl | he2
          · rfl
          · exact canonEmits_progress t e he2
        · simp at he
          rw [he]
          rfl

/-- C1 witness: the amended monotonicity theorem instantiated at a concrete
canonical run (destination, two increasing percent lines, 100% marker, stage
transition, one postprocessing line, one finalization line). -/
theorem C1_monotone_canonical_witness :
    List.Pairwise (· ≤ ·) (percentsOf (runFull (canonFeats
      { dests := [("[download] Destination: /tmp/a.mp4", "/tmp/a.mp4")],
        pcts := [("[download]  12.3%", "12.3", ⟨123, 10⟩),
                 ("[download]  50.0%", "50.0", ⟨500, 10⟩)],
        marks100 := ["[download] 100%"],
        conv := some "Extracting audio",
        inds := ["[ffmpeg] Postprocessing"],
        finals := ["Finished downloading"] }) none 0 [] "/out" "u"))
    ∧ ∃ body tm, (runFull (canonFeats
      { dests := [("[download] Destination: /tmp/a.mp4", "/tmp/a.mp4")],
        pcts := [("[download]  12.3%", "12.3", ⟨123, 10⟩),
                 ("[download]  50.0%", "50.0", ⟨500, 10⟩)],
        marks100 := ["[download] 100%"],
        conv := some "Extracting audio",
        inds := ["[ffmpeg] Postprocessing"],
        finals := ["Finished downloading"] }) none 0 [] "/out" "u").emits
        = body ++ [tm] ∧ isTerminal tm = true ∧ ∀ e ∈ body, isTerminal e = false := by
  exact C1_monotone_canonical
    { dests := [("[download] Destination: /tmp/a.mp4", "/tmp/a.mp4")],
      pcts := [("[download]  12.3%", "12.3", ⟨123, 10⟩),
               ("[download]  50.0%", "50.0", ⟨500, 10⟩)],
      marks100 := ["[download] 100%"],
      conv := some "Extracting audio",
      inds := ["[ffmpeg] Postprocessing"],
      finals := ["Finished downloading"] } 0 [] "/out" "u"
    (by decide) (by decide)
    (by
      show List.Chain' (· ≤ ·) [(12 : ℤ), 50]
      exact List.chain'_cons.mpr ⟨by decide, List.chain'_singleton 50⟩)

end YtDl
